import Mathlib

/-!
# RipenTech: the session / profile state container and the screen helpers

A shallow embedding of `src/context/UserContext.jsx` (the `UserProvider`
component) together with the part of the document store it talks to, and of
the pure helpers of the screens: the route wrappers of `src/App.jsx`, the
shelf-life table of `GroceryScreen.jsx`, the scan grouping and `getDaysToRipe`
of `Dashboard.jsx`, the history list and its filter of `HistoryScreen.jsx`, the
form validation of `SignupScreen.jsx`, `saveUserData` of `LoginScreen.jsx` and
`getUserInitials`.

* JavaScript values are the inductive type `JVal`; objects are association
  lists that keep insertion order, as JavaScript objects do.
* React state (`user`, `userDetails`, `loading`, `error`) is the record
  `Container`; every `setX` call is a record update, and an operation reads the
  state it is called in.
* The document store is the record `World`: the `users` collection, the
  outcomes still pending for the next store calls, and the log of the calls
  made so far.  An `async` function that `throw`s is a function returning
  `Except String _` (the string is `err.message`) next to the new state.
* `serverTimestamp()` is the sentinel `FieldInput.serverTimestamp`; the store
  replaces it by the time `now` of the write.  `updateDoc` reads dotted keys as
  field paths and writes the timestamps after the plain fields; `setDoc`
  replaces the document.
* Each operation runs to its end before the next one starts (`step`, `run`).
* A property read on an object literal with a key chosen by the caller goes
  through `protoGet`, which also finds the members of `Object.prototype`.
* Strings are lists of characters; `toLowerCase` and `toUpperCase` act on the
  letters A-Z and a-z, and where a claim speaks of arbitrary text the lowering
  function is a parameter.
-/

namespace RipenTech

/-! ## JavaScript values -/

/-- Values that occur in documents and in component state. `ts t` is a server
timestamp that has been resolved to the time `t` of the write. -/
inductive JVal where
  | undef
  | null
  | bool (b : Bool)
  | num (n : Int)
  | str (s : String)
  | ts (t : Nat)
  | arr (items : List JVal)
  | obj (fields : List (String × JVal))

/-- A JavaScript object / a document's data: fields in insertion order. -/
abbrev Obj := List (String × JVal)

/-- Own-property lookup in a keyed list, `none` when there is no such key. -/
def kvGet? {α : Type} : List (String × α) → String → Option α
  | [], _ => none
  | (k, v) :: rest, key => if k = key then some v else kvGet? rest key

/-- Property write `o[key] = v`: an existing key keeps its position, a new
key goes last. -/
def kvSet {α : Type} : List (String × α) → String → α → List (String × α)
  | [], key, v => [(key, v)]
  | (k, w) :: rest, key, v =>
    if k = key then (k, v) :: rest else (k, w) :: kvSet rest key v

/-- The spread `{...target, ...src}` (and `Object.assign`): the properties of
`src` are written onto `target` one by one, in order. -/
def kvAssign {α : Type} (target src : List (String × α)) : List (String × α) :=
  src.foldl (fun acc kv => kvSet acc kv.1 kv.2) target

/-- The keys of a keyed list, in order. -/
def kvKeys {α : Type} (o : List (String × α)) : List String := o.map Prod.fst

/-- Own-property lookup on an object. -/
def Obj.get? (o : Obj) (key : String) : Option JVal := kvGet? o key

/-- Property read `o[key]`: `undefined` when the key is missing. -/
def Obj.get (o : Obj) (key : String) : JVal :=
  match o.get? key with
  | some v => v
  | none => JVal.undef

/-- The keys of an object, in order. -/
def Obj.keys (o : Obj) : List String := kvKeys o

/-- A JavaScript object has each key once; the list representation has to be
told. -/
def Obj.WF (o : Obj) : Prop := o.keys.Nodup

/-- The conversion `!!v`. -/
def truthy : JVal → Bool
  | JVal.undef => false
  | JVal.null => false
  | JVal.bool b => b
  | JVal.num n => n != 0
  | JVal.str s => s != ""
  | JVal.ts _ => true
  | JVal.arr _ => true
  | JVal.obj _ => true

/-- Property read `v[key]` on a value that is not `null` or `undefined`, for
keys that no built-in prototype defines: an object answers with its own field,
every other value with `undefined`. -/
def JVal.prop (v : JVal) (key : String) : JVal :=
  match v with
  | JVal.obj fields => Obj.get fields key
  | _ => JVal.undef

/-! ## Component state -/

/-- One entry of `user.providerData`. -/
structure UserInfo where
  providerId : String

/-- The account service's user object, as far as the container reads it. -/
structure Identity where
  uid : String
  email : JVal
  providerData : List UserInfo

/-- The four `useState` cells of `UserProvider`. -/
structure Container where
  user : Option Identity
  userDetails : Option Obj
  loading : Bool
  error : Option String

/-- The state `UserProvider` mounts with (lines 20-23). -/
def Container.initial : Container :=
  { user := none, userDetails := none, loading := true, error := none }

/-- The cached profile as a JavaScript value (`null` when absent). -/
def Container.userDetailsVal (c : Container) : JVal :=
  match c.userDetails with
  | some d => JVal.obj d
  | none => JVal.null

/-! ## checkProfileComplete (lines 140-146) -/

/-- The literal at line 144. -/
def requiredFields : List String := ["name", "email", "organization", "agreedToTerms"]

/-- The parameter default `userData = userDetails`: it applies when the
argument is `undefined`. -/
def defaultParam (arg dflt : JVal) : JVal :=
  match arg with
  | JVal.undef => dflt
  | v => v

/-- Lines 141-146. -/
def checkProfileComplete (c : Container) (arg : JVal) : Bool :=
  let userData := defaultParam arg c.userDetailsVal
  if !truthy userData then false
  else requiredFields.all (fun field => truthy (userData.prop field))

/-- Spec-side reading of "field `key` is present and truthy on the snapshot". -/
def presentTruthy (d : Obj) (key : String) : Bool :=
  match d.get? key with
  | some v => truthy v
  | none => false

/-! ## The document store -/

/-- A field of a write request: a plain value, or the `serverTimestamp()`
sentinel that the store replaces by the time of the write. -/
inductive FieldInput where
  | value (v : JVal)
  | serverTimestamp

/-- The data object handed to `setDoc` / `updateDoc`. -/
abbrev WriteData := List (String × FieldInput)

/-- The `users` collection: document data by document id. -/
abbrev Store := List (String × Obj)

/-- A call made on the document store. -/
inductive StoreCall where
  | getDoc (id : String)
  | updateDoc (id : String) (data : WriteData)
  | setDoc (id : String) (data : WriteData)

/-- The store as the container sees it. `pending` holds the outcome of the
calls to come, in order: `none` lets the call through, `some msg` rejects it
with an error whose message is `msg`; past the end every call goes through. -/
structure World where
  users : Store
  pending : List (Option String)
  log : List StoreCall

/-- Record a call and take its outcome. -/
def World.call (w : World) (op : StoreCall) : Option String × World :=
  match w.pending with
  | [] => (none, { w with log := w.log ++ [op] })
  | o :: rest => (o, { w with pending := rest, log := w.log ++ [op] })

/-- The next `n` store calls of `w` go through. -/
def World.nextOk (w : World) (n : Nat) : Bool :=
  (w.pending.take n).all Option.isNone

/-- Split the characters of a key at every dot. -/
def splitDots : List Char → List (List Char)
  | [] => [[]]
  | c :: cs =>
    if c = '.' then [] :: splitDots cs
    else
      match splitDots cs with
      | [] => [[c]]
      | seg :: segs => (c :: seg) :: segs

/-- The field path `updateDoc` reads from a key: its dot-separated segments. -/
def fieldPath (key : String) : List String :=
  (splitDots key.toList).map String.mk

/-- Write `v` at a field path, creating the maps on the way. -/
def setPath : List String → JVal → Obj → Obj
  | [], _, o => o
  | [k], v, o => kvSet o k v
  | k :: rest, v, o =>
    let inner : Obj :=
      match kvGet? o k with
      | some (JVal.obj fields) => fields
      | _ => []
    kvSet o k (JVal.obj (setPath rest v inner))

/-- The document after an update: the plain fields are written at their
paths, then the server timestamps. -/
def applyUpdate (now : Nat) (doc : Obj) (data : WriteData) : Obj :=
  let plain := data.foldl (fun d kv =>
    match kv.2 with
    | FieldInput.value v => setPath (fieldPath kv.1) v d
    | FieldInput.serverTimestamp => d) doc
  data.foldl (fun d kv =>
    match kv.2 with
    | FieldInput.value _ => d
    | FieldInput.serverTimestamp => setPath (fieldPath kv.1) (JVal.ts now) d) plain

/-- The first pass of `applyUpdate`: the plain fields. -/
def applyPlain (doc : Obj) (data : WriteData) : Obj :=
  data.foldl (fun d kv =>
    match kv.2 with
    | FieldInput.value v => setPath (fieldPath kv.1) v d
    | FieldInput.serverTimestamp => d) doc

/-- The second pass of `applyUpdate`: the server timestamps. -/
def applyStamps (now : Nat) (doc : Obj) (data : WriteData) : Obj :=
  data.foldl (fun d kv =>
    match kv.2 with
    | FieldInput.value _ => d
    | FieldInput.serverTimestamp => setPath (fieldPath kv.1) (JVal.ts now) d) doc

/-- The document `setDoc` stores: every field as given, sentinels resolved. -/
def resolveData (now : Nat) (data : WriteData) : Obj :=
  data.map (fun kv =>
    (kv.1, match kv.2 with
      | FieldInput.value v => v
      | FieldInput.serverTimestamp => JVal.ts now))

/-- The value `setDoc` stores for a field of the request. -/
def resolveField (now : Nat) : FieldInput → JVal
  | FieldInput.value v => v
  | FieldInput.serverTimestamp => JVal.ts now

/-- `getDoc(doc(db, 'users', id))`: the snapshot's data, `none` when the
document does not exist. -/
def getDoc (w : World) (id : String) : Except String (Option Obj) × World :=
  match w.call (StoreCall.getDoc id) with
  | (some e, w1) => (Except.error e, w1)
  | (none, w1) => (Except.ok (kvGet? w1.users id), w1)

/-- `updateDoc(doc(db, 'users', id), data)` at time `now`: rejects when the
document does not exist. -/
def updateDoc (w : World) (id : String) (data : WriteData) (now : Nat) :
    Except String Unit × World :=
  match w.call (StoreCall.updateDoc id data) with
  | (some e, w1) => (Except.error e, w1)
  | (none, w1) =>
    match kvGet? w1.users id with
    | none => (Except.error "No document to update", w1)
    | some d => (Except.ok (), { w1 with users := kvSet w1.users id (applyUpdate now d data) })

/-- `setDoc(doc(db, 'users', id), data)` at time `now` (no merge option):
the document is created or replaced. -/
def setDoc (w : World) (id : String) (data : WriteData) (now : Nat) :
    Except String Unit × World :=
  match w.call (StoreCall.setDoc id data) with
  | (some e, w1) => (Except.error e, w1)
  | (none, w1) => (Except.ok (), { w1 with users := kvSet w1.users id (resolveData now data) })

/-! ## Object spread -/

/-- Index the items of an array-like value from `i` on. -/
def indexFrom : Nat → List JVal → Obj
  | _, [] => []
  | i, x :: xs => (toString i, x) :: indexFrom (i + 1) xs

/-- The own enumerable properties that `{...v}` copies. -/
def spreadOf : JVal → Obj
  | JVal.obj fields => fields
  | JVal.arr items => indexFrom 0 items
  | JVal.str s => indexFrom 0 (s.toList.map (fun ch => JVal.str (String.singleton ch)))
  | JVal.ts t => [("seconds", JVal.num t), ("nanoseconds", JVal.num 0)]
  | _ => []

/-- Plain fields of a write request. -/
def asValues (o : Obj) : WriteData := o.map (fun kv => (kv.1, FieldInput.value kv.2))

/-- What `snapshot.data()` gives: `undefined` for a missing document. -/
def docData : Option Obj → JVal
  | some d => JVal.obj d
  | none => JVal.undef

/-! ## updateUserProfile (lines 67-104) -/

/-- Line 86: `user.providerData[0]?.providerId || 'unknown'`. -/
def authProviderOf (user : Identity) : String :=
  match user.providerData.head? with
  | some info => if info.providerId ≠ "" then info.providerId else "unknown"
  | none => "unknown"

/-- The object literal of lines 77-80. -/
def profileUpdateData (userData : JVal) : WriteData :=
  kvSet (kvAssign [] (asValues (spreadOf userData))) "updatedAt" FieldInput.serverTimestamp

/-- The object literal of lines 83-91. -/
def profileCreateData (user : Identity) (userData : JVal) : WriteData :=
  kvAssign
    [ ("uid", FieldInput.value (JVal.str user.uid)),
      ("email", FieldInput.value user.email),
      ("authProvider", FieldInput.value (JVal.str (authProviderOf user))),
      ("createdAt", FieldInput.serverTimestamp),
      ("lastLogin", FieldInput.serverTimestamp),
      ("accountStatus", FieldInput.value (JVal.str "active")) ]
    (asValues (spreadOf userData))

/-- The `try` block, lines 70-98. -/
def updateUserProfileTry (userData : JVal) (now : Nat) (c : Container) (w : World) :
    Except String JVal × Container × World :=
  match c.user with
  | none => (Except.error "No authenticated user", c, w)
  | some user =>
    match getDoc w user.uid with
    | (Except.error e, w1) => (Except.error e, c, w1)
    | (Except.ok userDoc, w1) =>
      let written :=
        match userDoc with
        | some _ => updateDoc w1 user.uid (profileUpdateData userData) now
        | none => setDoc w1 user.uid (profileCreateData user userData) now
      match written with
      | (Except.error e, w2) => (Except.error e, c, w2)
      | (Except.ok (), w2) =>
        match getDoc w2 user.uid with
        | (Except.error e, w3) => (Except.error e, c, w3)
        | (Except.ok updatedDoc, w3) =>
          (Except.ok (docData updatedDoc), { c with userDetails := updatedDoc }, w3)

/-- Lines 68-104: the `try` block, and the `catch` that records the message
and throws again. -/
def updateUserProfile (userData : JVal) (now : Nat) (c : Container) (w : World) :
    Except String JVal × Container × World :=
  match updateUserProfileTry userData now c w with
  | (Except.error e, c1, w1) => (Except.error e, { c1 with error := some e }, w1)
  | (Except.ok v, c1, w1) => (Except.ok v, c1, w1)

/-! ## updateUserSettings (lines 106-138) -/

/-- The object literal of lines 120-126. -/
def settingsUpdateData (current : Obj) (settings : JVal) : WriteData :=
  [ ("settings", FieldInput.value
      (JVal.obj (kvAssign (kvAssign [] (spreadOf (Obj.get current "settings")))
        (spreadOf settings)))),
    ("updatedAt", FieldInput.serverTimestamp) ]

/-- The `try` block, lines 109-132. -/
def updateUserSettingsTry (settings : JVal) (now : Nat) (c : Container) (w : World) :
    Except String JVal × Container × World :=
  match c.user with
  | none => (Except.error "No authenticated user", c, w)
  | some user =>
    match getDoc w user.uid with
    | (Except.error e, w1) => (Except.error e, c, w1)
    | (Except.ok none, w1) => (Except.error "User profile does not exist", c, w1)
    | (Except.ok (some current), w1) =>
      match updateDoc w1 user.uid (settingsUpdateData current settings) now with
      | (Except.error e, w2) => (Except.error e, c, w2)
      | (Except.ok (), w2) =>
        match getDoc w2 user.uid with
        | (Except.error e, w3) => (Except.error e, c, w3)
        | (Except.ok updatedDoc, w3) =>
          let c1 := { c with userDetails := updatedDoc }
          match updatedDoc with
          | some d => (Except.ok (Obj.get d "settings"), c1, w3)
          | none => (Except.error "Cannot read properties of undefined", c1, w3)

/-- Lines 107-138: the `try` block, and the `catch` that records the message
and throws again. -/
def updateUserSettings (settings : JVal) (now : Nat) (c : Container) (w : World) :
    Except String JVal × Container × World :=
  match updateUserSettingsTry settings now c w with
  | (Except.error e, c1, w1) => (Except.error e, { c1 with error := some e }, w1)
  | (Except.ok v, c1, w1) => (Except.ok v, c1, w1)

/-! ## The identity-change handler (lines 27-61) -/

/-- The `try` block, lines 30-54; `c` already has `loading` set. -/
def onAuthStateChangedTry (authUser : Option Identity) (now : Nat) (c : Container)
    (w : World) : Except String Unit × Container × World :=
  match authUser with
  | some au =>
    -- lines 32-37: the rejection of this write is swallowed by `.catch`
    let w1 := (updateDoc w au.uid [("lastLogin", FieldInput.serverTimestamp)] now).2
    match getDoc w1 au.uid with
    | (Except.error e, w2) => (Except.error e, c, w2)
    | (Except.ok userDoc, w2) =>
      (Except.ok (), { c with user := some au, userDetails := userDoc }, w2)
  | none => (Except.ok (), { c with user := none, userDetails := none }, w)

/-- The callback given to `onAuthStateChanged`: `setLoading(true)`, the `try`
block, the `catch` that records the message, the `finally` that clears
`loading`. -/
def onAuthStateChanged (authUser : Option Identity) (now : Nat) (c : Container)
    (w : World) : Except String Unit × Container × World :=
  let c0 := { c with loading := true }
  let caught :=
    match onAuthStateChangedTry authUser now c0 w with
    | (Except.error e, c1, w1) => (Except.ok (), { c1 with error := some e }, w1)
    | (Except.ok (), c1, w1) => (Except.ok (), c1, w1)
  (caught.1, { caught.2.1 with loading := false }, caught.2.2)

/-! ## logout (lines 148-161) -/

/-- Lines 149-161; `signOut` is the account service's answer to the sign-out
request. -/
def logout (signOut : Except String Unit) (c : Container) (w : World) :
    Except String Bool × Container × World :=
  let c0 := { c with loading := true }
  match signOut with
  | Except.ok () => (Except.ok true, c0, w)
  | Except.error e => (Except.error e, { c0 with error := some e, loading := false }, w)

/-! ## Runs of the container -/

/-- What can happen to a mounted container. -/
inductive Event where
  | authStateChanged (authUser : Option Identity) (now : Nat)
  | updateUserProfile (userData : JVal) (now : Nat)
  | updateUserSettings (settings : JVal) (now : Nat)
  | checkProfileComplete (arg : JVal)
  | logout (signOut : Except String Unit)

/-- The state after an event has been handled to its end. -/
def step (e : Event) (s : Container × World) : Container × World :=
  match e with
  | Event.authStateChanged authUser now => (onAuthStateChanged authUser now s.1 s.2).2
  | Event.updateUserProfile userData now => (updateUserProfile userData now s.1 s.2).2
  | Event.updateUserSettings settings now => (updateUserSettings settings now s.1 s.2).2
  | Event.checkProfileComplete _ => s
  | Event.logout signOut => (logout signOut s.1 s.2).2

/-- The state after a sequence of events. -/
def run (es : List Event) (s : Container × World) : Container × World :=
  es.foldl (fun acc e => step e acc) s

/-- Whether an event is a `logout` call whose sign-out request succeeds. -/
def Event.isLogoutOk : Event → Bool
  | Event.logout (Except.ok _) => true
  | _ => false

/-! ## Spec-side predicates and the examples of the spec -/

/-- Spec-side reading of "merged key by key": `M` has each key once, its keys
are those of `S` together with those of `P`, and it holds the value of `P` on
the keys of `P` and the value of `S` elsewhere. -/
def MergedSettings (S P M : Obj) : Prop :=
  Obj.WF M
    ∧ (∀ k, k ∈ M.keys ↔ k ∈ S.keys ∨ k ∈ P.keys)
    ∧ (∀ k, k ∈ P.keys → M.get? k = P.get? k)
    ∧ (∀ k, k ∉ P.keys → M.get? k = S.get? k)

/-- Spec-side reading of "a created profile": `D` holds every supplied field
of `F` with its value and, where `F` does not supply them, the uid and email of
the identity, the status "active", and `createdAt` and `lastLogin` stamped with
the time `now` of creation. -/
def CreatedProfile (u : Identity) (F : Obj) (now : Nat) (D : Obj) : Prop :=
  (∀ k v, F.get? k = some v → D.get? k = some v)
    ∧ ("uid" ∉ F.keys → D.get? "uid" = some (JVal.str u.uid))
    ∧ ("email" ∉ F.keys → D.get? "email" = some u.email)
    ∧ ("accountStatus" ∉ F.keys → D.get? "accountStatus" = some (JVal.str "active"))
    ∧ ("createdAt" ∉ F.keys → D.get? "createdAt" = some (JVal.ts now))
    ∧ ("lastLogin" ∉ F.keys → D.get? "lastLogin" = some (JVal.ts now))

/-- The identity of the scenario in the spec: `{id: "u1", email: "a@b.com"}`. -/
def exIdentity : Identity :=
  { uid := "u1", email := JVal.str "a@b.com", providerData := [] }

/-- A resolved container holding `exIdentity` and no profile. -/
def exContainer : Container :=
  { user := some exIdentity, userDetails := none, loading := false, error := none }

/-- An empty store in which every call goes through. -/
def exEmptyWorld : World := { users := [], pending := [], log := [] }

/-- Existing settings `{language: "en", theme: "light"}`. -/
def exSettings : Obj := [("language", JVal.str "en"), ("theme", JVal.str "light")]

/-- Partial settings `{theme: "dark"}`. -/
def exPartial : Obj := [("theme", JVal.str "dark")]

/-- Merged settings `{language: "en", theme: "dark"}`. -/
def exMerged : Obj := [("language", JVal.str "en"), ("theme", JVal.str "dark")]

/-- A store holding a profile for `u1` with the settings `exSettings`. -/
def exSettingsWorld : World :=
  { users := [("u1", [("uid", JVal.str "u1"), ("settings", JVal.obj exSettings)])],
    pending := [], log := [] }

/-- The field `key` of the document stored under `id`, if both exist. -/
def storedField (w : World) (id key : String) : Option JVal :=
  (kvGet? w.users id).bind (fun d => kvGet? d key)

/-- A first `updateUserProfile({})` at time 5 for `exIdentity`, which has no
document yet. -/
def exFirstCall : Except String JVal × Container × World :=
  updateUserProfile (JVal.obj []) 5 exContainer exEmptyWorld

/-- A second call at time 9, on the state the first one left, that supplies a
`createdAt` field. -/
def exSecondCall : Except String JVal × Container × World :=
  updateUserProfile (JVal.obj [("createdAt", JVal.num 0)]) 9 exFirstCall.2.1
    exFirstCall.2.2

/-- The state after the identity `exIdentity` has been announced and a logout
whose sign-out succeeded has run: the identity is still cached and `loading`
is set. -/
def exLoadingState : Container × World :=
  run [Event.authStateChanged (some exIdentity) 1, Event.logout (Except.ok ())]
    (Container.initial, exSettingsWorld)

/-- The call number `i` from now (counting from 0) goes through. -/
def World.callOk (w : World) (i : Nat) : Bool :=
  match (w.pending.drop i).head? with
  | some (some _) => false
  | _ => true

/-- The object literal of lines 32-34, the last-login write. -/
def lastLoginData : WriteData := [("lastLogin", FieldInput.serverTimestamp)]

/-- A resolved container with nothing cached. -/
def exSignedOut : Container :=
  { user := none, userDetails := none, loading := false, error := none }

/-- A store holding a profile for `u1` that was last updated at time 1. -/
def exStampedWorld : World :=
  { users := [("u1", [("uid", JVal.str "u1"), ("updatedAt", JVal.ts 1)])],
    pending := [], log := [] }

/-! ## Route wrappers (`src/App.jsx`, lines 32-55) -/

/-- What a route wrapper returns to the renderer. -/
inductive Rendered where
  | nothing
  | navigate (path : String)
  | children

/-- Lines 33-46, the value returned: `null` while loading or without a user,
the children otherwise. -/
def ProtectedRoute (c : Container) : Rendered :=
  if c.loading then Rendered.nothing
  else if c.user.isNone then Rendered.nothing
  else Rendered.children

/-- Lines 49-55: `null` while loading, a redirect to the dashboard with a
user, the children otherwise. -/
def PublicRoute (c : Container) : Rendered :=
  if c.loading then Rendered.nothing
  else if c.user.isSome then Rendered.navigate "/dashboard"
  else Rendered.children

/-! ## Shelf-life recommendations (`src/screens/GroceryScreen.jsx`, lines 97-152) -/

/-- The property names every object literal inherits from `Object.prototype`. -/
def objectPrototypeKeys : List String :=
  ["constructor", "__defineGetter__", "__defineSetter__", "hasOwnProperty",
   "__lookupGetter__", "__lookupSetter__", "isPrototypeOf", "propertyIsEnumerable",
   "toString", "valueOf", "__proto__", "toLocaleString"]

/-- The outcome of the property read `o[key]` on an object literal: an own
property, a member inherited from `Object.prototype`, or `undefined`. -/
inductive Lookup (α : Type) where
  | own (v : α)
  | inherited (key : String)
  | undefined

/-- The property read `o[key]` on an object literal. -/
def protoGet {α : Type} (o : List (String × α)) (key : String) : Lookup α :=
  match kvGet? o key with
  | some v => Lookup.own v
  | none => if key ∈ objectPrototypeKeys then Lookup.inherited key else Lookup.undefined

/-- What `getShelfLifeRecommendation` returns: a text of the table,
`undefined`, the member `key` of `Object.prototype`, or the property `key` of
the member `owner` of `Object.prototype`, which is left uninterpreted (it is
whatever the runtime holds there, never a text of the table). -/
inductive Recommendation where
  | text (s : String)
  | undefined
  | inherited (key : String)
  | builtinMember (owner key : String)

/-- The table of lines 99-148. -/
def recommendations : List (String × List (String × String)) :=
  [ ("Apple",
      [ ("Ripe", "Optimal for consumption now. Can be stored in the refrigerator for up to 2 weeks."),
        ("Unripe", "Will ripen in 3-5 days at room temperature. Place in a paper bag to speed up ripening.") ]),
    ("Banana",
      [ ("Ripe", "Best consumed within 1-2 days. Refrigerate to slow ripening or freeze for smoothies."),
        ("Unripe", "Will ripen in 2-3 days at room temperature. Place near apples to speed up ripening.") ]),
    ("Dragon",
      [ ("Ripe", "Best consumed within 3-5 days. Can be refrigerated to extend shelf life."),
        ("Unripe", "Will ripen in 4-7 days at room temperature.") ]),
    ("Grapes",
      [ ("Ripe", "Ready to eat. Can be refrigerated for up to 1-2 weeks."),
        ("Unripe", "Should ripen within 1-2 days at room temperature.") ]),
    ("Lemon",
      [ ("Ripe", "Can be stored at room temperature for 1 week or refrigerated for up to 3 weeks."),
        ("Unripe", "Will ripen in 3-5 days at room temperature.") ]),
    ("Mango",
      [ ("Ripe", "Best consumed within 2-3 days. Refrigerate to extend shelf life."),
        ("Unripe", "Will ripen in 4-5 days at room temperature. Place in a paper bag to speed up ripening.") ]),
    ("Orange",
      [ ("Ripe", "Ready to eat. Can be stored at room temperature for up to 1 week or refrigerated for 2-3 weeks."),
        ("Unripe", "Allow to ripen at room temperature for 1-3 days.") ]),
    ("Papaya",
      [ ("Ripe", "Consume within 1-2 days. Refrigerate to extend shelf life slightly."),
        ("Unripe", "Will ripen in 3-5 days at room temperature.") ]),
    ("Pineapple",
      [ ("Ripe", "Consume within 2-3 days. Can be refrigerated for up to 5-7 days once cut."),
        ("Unripe", "Will ripen in 1-2 days at room temperature. Cannot ripen further once harvested.") ]),
    ("Pomegranate",
      [ ("Ripe", "Can be stored at room temperature for up to 1 week or refrigerated for up to 2 months."),
        ("Unripe", "Will ripen in 1-2 weeks at room temperature.") ]),
    ("Strawberry",
      [ ("Ripe", "Consume immediately or within 1-2 days. Refrigerate for best preservation."),
        ("Unripe", "Will ripen in 1-2 days at room temperature, but flavor may not improve significantly.") ]),
    ("default",
      [ ("Ripe", "Ready for consumption. Store in appropriate conditions based on fruit type."),
        ("Unripe", "Store at room temperature to continue ripening process.") ]) ]

/-- The eleven fruits the table lists. -/
def listedFruits : List String :=
  ["Apple", "Banana", "Dragon", "Grapes", "Lemon", "Mango", "Orange", "Papaya",
   "Pineapple", "Pomegranate", "Strawberry"]

/-- The read `entry[ripeness]` on an entry of the table. -/
def entryProp (entry : List (String × String)) (ripeness : String) : Recommendation :=
  match protoGet entry ripeness with
  | Lookup.own s => Recommendation.text s
  | Lookup.inherited key => Recommendation.inherited key
  | Lookup.undefined => Recommendation.undefined

/-- The read `m[ripeness]` on the member `owner` of `Object.prototype`: no
built-in has a property named "Ripe" or "Unripe"; other keys are left
uninterpreted. -/
def builtinProp (owner ripeness : String) : Recommendation :=
  if ripeness = "Ripe" ∨ ripeness = "Unripe" then Recommendation.undefined
  else Recommendation.builtinMember owner ripeness

/-- The entry `recommendations.default`. -/
def defaultEntry : List (String × String) :=
  match kvGet? recommendations "default" with
  | some entry => entry
  | none => []

/-- Line 151: `recommendations[fruit] ? recommendations[fruit][ripeness] :
recommendations.default[ripeness]`; table entries and inherited members are
all truthy. -/
def getShelfLifeRecommendation (fruit ripeness : String) : Recommendation :=
  match protoGet recommendations fruit with
  | Lookup.own entry => entryProp entry ripeness
  | Lookup.inherited owner => builtinProp owner ripeness
  | Lookup.undefined => entryProp defaultEntry ripeness

/-! ## Days to ripe (`src/screens/Dashboard.jsx`, lines 97-111) -/

/-- The method `toLowerCase` on the letters A-Z. A string lowers to one of the
labels the switch compares with exactly when this function maps it there: the
only other characters whose lower case is an ASCII letter give "k", which no
label contains. -/
def toLowerCase (s : String) : String := String.mk (s.toList.map Char.toLower)

/-- Lines 98-111; `none` is a missing (`undefined` or `null`) label. -/
def getDaysToRipe (ripeness : Option String) : Int :=
  let label := ripeness.map toLowerCase
  if label = some "ripe" then 0
  else if label = some "overripe" then -1
  else if label = some "underripe" then 3
  else if label = some "nearly ripe" then 1
  else 2

/-- Spec-side reading of "compared case-insensitively": two labels are the
same when they differ only in the case of their letters. -/
def sameIgnoringCase (a b : String) : Bool := toLowerCase a = toLowerCase b

/-! ## Recent scans (`src/screens/Dashboard.jsx`, lines 41-69) -/

/-- A primitive field value of a scan document; `===` and `includes` compare
such values by equality. -/
inductive Prim where
  | undefined
  | null
  | bool (b : Bool)
  | num (n : Int)
  | str (s : String)
  deriving DecidableEq

/-- The conversion `!!v` on a primitive. -/
def Prim.truthy : Prim → Bool
  | Prim.undefined => false
  | Prim.null => false
  | Prim.bool b => b
  | Prim.num n => n != 0
  | Prim.str s => s != ""

/-- A document of the `fruitScans` query, as far as lines 45-55 read it;
`date` is `data.scannedAt.toDate().toLocaleDateString()`. -/
structure ScanDoc where
  id : String
  date : String
  location : Prim
  fruit : Prim
  scanId : Prim
  imageUrl : Prim

/-- An entry of the recent-scans list. -/
structure RecentScan where
  id : String
  date : String
  location : Prim
  fruits : List Prim
  scanId : Prim
  imageUrl : Prim

/-- The object literal of lines 48-55. -/
def scanOf (doc : ScanDoc) : RecentScan :=
  { id := doc.id,
    date := doc.date,
    location := if doc.location.truthy then doc.location else Prim.str "Unknown",
    fruits := [doc.fruit],
    scanId := doc.scanId,
    imageUrl := doc.imageUrl }

/-- The method `findIndex`: the first index whose element passes, `none`
for -1. -/
def findIndex {α : Type} (p : α → Bool) : List α → Option Nat
  | [] => none
  | x :: xs => if p x then some 0 else (findIndex p xs).map (· + 1)

/-- The element `xs[i]`. -/
def elemAt {α : Type} : List α → Nat → Option α
  | [], _ => none
  | x :: _, 0 => some x
  | _ :: xs, i + 1 => elemAt xs i

/-- The list with `f` applied to the element at index `i`. -/
def updateAt {α : Type} (f : α → α) : List α → Nat → List α
  | [], _ => []
  | x :: xs, 0 => f x :: xs
  | x :: xs, i + 1 => x :: updateAt f xs i

/-- The body of the `forEach` at lines 44-69, on the list `scans`. -/
def addScan (scans : List RecentScan) (doc : ScanDoc) : List RecentScan :=
  let scan := scanOf doc
  match findIndex (fun s => decide (s.date = scan.date) && decide (s.scanId = scan.scanId))
      scans with
  | some existingScanIndex =>
    match elemAt scans existingScanIndex with
    | some existing =>
      if existing.fruits.contains doc.fruit then scans
      else updateAt (fun s => { s with fruits := s.fruits ++ [doc.fruit] }) scans
        existingScanIndex
    | none => scans
  | none => scans ++ [scan]

/-- The list handed to `setRecentScans` (line 84) for the documents of the
query, in order. -/
def recentScans (docs : List ScanDoc) : List RecentScan :=
  docs.foldl addScan []

/-- The pair that identifies an entry. -/
def RecentScan.key (s : RecentScan) : String × Prim := (s.date, s.scanId)

/-- The pair that identifies the entry of a document. -/
def ScanDoc.key (d : ScanDoc) : String × Prim := (d.date, d.scanId)

/-- The fused form of `addScan`: walk the list, extend the first entry with
the key of the document, or append a new entry at the end. -/
def insertScan : List RecentScan → ScanDoc → List RecentScan
  | [], doc => [scanOf doc]
  | s :: rest, doc =>
    if s.key = doc.key then
      (if s.fruits.contains doc.fruit then s
        else { s with fruits := s.fruits ++ [doc.fruit] }) :: rest
    else s :: insertScan rest doc

/-- What holds of the list `scans` built from the documents `docs`. -/
def ScansInvariant (scans : List RecentScan) (docs : List ScanDoc) : Prop :=
  (scans.map RecentScan.key).Nodup
    ∧ (∀ s ∈ scans, s.fruits.Nodup)
    ∧ (∀ d ∈ docs, ∃ s ∈ scans, s.key = d.key ∧ d.fruit ∈ s.fruits)

/-! ## History (`src/screens/HistoryScreen.jsx`, lines 20-132) -/

/-- An item of the combined history list, as far as sorting and filtering
read it; `date` is the time value of `item.date`, in milliseconds. -/
structure HistoryItem where
  id : String
  type : String
  fruit : String
  date : Int
  ripeness : String

/-- A document of the `fruitScans` query; `scannedAt` is the time value of
`data.scannedAt.toDate()`. -/
structure ScanRecord where
  id : String
  fruit : String
  scannedAt : Int
  ripeness : Option String

/-- A document of the `groceryItems` query; `addedAt` is the time value of
`data.addedAt.toDate()`. -/
structure GroceryRecord where
  id : String
  fruit : String
  addedAt : Int
  ripeness : Option String

/-- Lines 28-38: the start of the date range, `none` for `null`. -/
def startDateOf (dateRange : String) (now : Int) : Option Int :=
  if dateRange = "week" then some (now - 7 * 24 * 60 * 60 * 1000)
  else if dateRange = "month" then some (now - 30 * 24 * 60 * 60 * 1000)
  else none

/-- The test `startDate && date < startDate` of lines 64 and 86. -/
def outOfRange (startDate : Option Int) (date : Int) : Bool :=
  match startDate with
  | some start => decide (date < start)
  | none => false

/-- The default `data.ripeness || 'Unknown'`. -/
def orUnknown : Option String → String
  | some s => if s ≠ "" then s else "Unknown"
  | none => "Unknown"

/-- The object literal of lines 68-79. -/
def scanItemOf (data : ScanRecord) : HistoryItem :=
  { id := data.id, type := "scan", fruit := data.fruit, date := data.scannedAt,
    ripeness := orUnknown data.ripeness }

/-- The object literal of lines 90-102. -/
def groceryItemOf (data : GroceryRecord) : HistoryItem :=
  { id := data.id, type := "grocery", fruit := data.fruit, date := data.addedAt,
    ripeness := orUnknown data.ripeness }

/-- Lines 61-80: the `forEach` that skips the documents out of range and
pushes an item for the others. -/
def scanItems (startDate : Option Int) (docs : List ScanRecord) : List HistoryItem :=
  docs.foldl (fun items data =>
    if outOfRange startDate data.scannedAt then items else items ++ [scanItemOf data]) []

/-- Lines 83-103. -/
def groceryItems (startDate : Option Int) (docs : List GroceryRecord) : List HistoryItem :=
  docs.foldl (fun items data =>
    if outOfRange startDate data.addedAt then items else items ++ [groceryItemOf data]) []

/-- The order the comparator `(a, b) => b.date - a.date` asks for. -/
def newerFirst (a b : HistoryItem) : Prop := a.date ≥ b.date

instance : DecidableRel newerFirst := fun a b => inferInstanceAs (Decidable (a.date ≥ b.date))

/-- The method `sort` with the comparator of line 106: a stable sort, items
of equal date keep their order. -/
def sortByDate (items : List HistoryItem) : List HistoryItem :=
  List.insertionSort newerFirst items

/-- Lines 60-108: the list handed to `setHistoryItems`, for the documents of
the two queries and the time `now` of the call. -/
def fetchHistoryData (dateRange : String) (now : Int) (scans : List ScanRecord)
    (groceries : List GroceryRecord) : List HistoryItem :=
  let startDate := startDateOf dateRange now
  sortByDate (scanItems startDate scans ++ groceryItems startDate groceries)

/-- The method `includes` on strings. -/
def includes (s sub : String) : Bool := decide (sub.toList <:+: s.toList)

/-- Lines 121-132; `lower` is the method `toLowerCase` of the runtime. -/
def filteredItems (lower : String → String) (historyItems : List HistoryItem)
    (activeFilter searchTerm : String) : List HistoryItem :=
  historyItems.filter (fun item =>
    if activeFilter = "scans" ∧ item.type ≠ "scan" then false
    else if activeFilter = "grocery" ∧ item.type ≠ "grocery" then false
    else if searchTerm ≠ "" ∧ includes (lower item.fruit) (lower searchTerm) = false
      then false
    else true)

/-- Spec-side reading of "the type matches the filter". -/
def typeAdmitted (activeFilter type : String) : Prop :=
  activeFilter = "all" ∨ (activeFilter = "scans" ∧ type = "scan")
    ∨ (activeFilter = "grocery" ∧ type = "grocery")

/-- Spec-side reading of "the fruit name contains the search term, compared
case-insensitively; an empty term admits every item". -/
def termAdmitted (lower : String → String) (searchTerm fruit : String) : Prop :=
  searchTerm = "" ∨ (lower searchTerm).toList <:+: (lower fruit).toList

instance (activeFilter type : String) : Decidable (typeAdmitted activeFilter type) := by
  unfold typeAdmitted
  infer_instance

instance (lower : String → String) (searchTerm fruit : String) :
    Decidable (termAdmitted lower searchTerm fruit) := by
  unfold termAdmitted
  infer_instance

/-! ## Signup form (`src/screens/SignupScreen.jsx`, lines 25-72) -/

/-- The property `length` of a string: its number of UTF-16 code units. -/
def jsLength (s : String) : Nat :=
  s.toList.foldl (fun n c => n + (if c.toNat ≥ 65536 then 2 else 1)) 0

/-- Lines 26-39: the value the effect stores in `passwordStrength`; the
regular expressions are `[A-Z]`, `[0-9]` and `[^A-Za-z0-9]`. -/
def passwordStrengthOf (password : String) : Nat :=
  if password = "" then 0
  else
    let strength := 0
    let strength := if jsLength password ≥ 8 then strength + 1 else strength
    let strength := if password.toList.any Char.isUpper then strength + 1 else strength
    let strength := if password.toList.any Char.isDigit then strength + 1 else strength
    let strength :=
      if password.toList.any (fun c => !c.isAlphanum) then strength + 1 else strength
    strength

/-- Lines 53-72: the value returned and the message left in `error`;
`passwordStrength` is the state cell the effect keeps. -/
def validateForm (password confirmPassword : String) (passwordStrength : Nat)
    (agreedToTerms : Bool) : Bool × String :=
  if password ≠ confirmPassword then (false, "Passwords do not match")
  else if passwordStrength < 2 then (false, "Please use a stronger password")
  else if !agreedToTerms then (false, "You must agree to the Terms and Privacy Policy")
  else (true, "")

/-- Spec-side: the four criteria, in the order the claim lists them: length
at least 8, an upper-case letter, a digit, a character that is neither a
letter nor a digit. -/
def strengthCriteria (password : String) : List Bool :=
  [ decide (jsLength password ≥ 8),
    password.toList.any (fun c => decide ('A' ≤ c ∧ c ≤ 'Z')),
    password.toList.any (fun c => decide ('0' ≤ c ∧ c ≤ '9')),
    password.toList.any (fun c =>
      !(decide ('A' ≤ c ∧ c ≤ 'Z') || decide ('a' ≤ c ∧ c ≤ 'z')
        || decide ('0' ≤ c ∧ c ≤ '9'))) ]

/-- Spec-side: 0 for the empty password, otherwise the number of criteria
satisfied. -/
def specStrength (password : String) : Nat :=
  if password = "" then 0 else (strengthCriteria password).count true

/-! ## Login (`src/screens/LoginScreen.jsx`, lines 23-58) -/

mutual
/-- The value a merge leaves at a field: a non-empty map is merged into the
map already there, any other value replaces what is there. -/
def mergeVal : Option JVal → JVal → JVal
  | some (JVal.obj old), JVal.obj (f :: fs) => JVal.obj (mergeFields old (f :: fs))
  | _, JVal.obj (f :: fs) => JVal.obj (mergeFields [] (f :: fs))
  | _, v => v
/-- The fields of `new` merged into `old`, one by one. -/
def mergeFields : Obj → List (String × JVal) → Obj
  | old, [] => old
  | old, (k, v) :: rest => mergeFields (kvSet old k (mergeVal (kvGet? old k) v)) rest
end

/-- The document after `setDoc(ref, data, { merge: true })` at time `now`:
the plain fields are merged into the document, then the server timestamps are
written. -/
def mergeData (now : Nat) (doc : Obj) (data : WriteData) : Obj :=
  let plain := data.foldl (fun d kv =>
    match kv.2 with
    | FieldInput.value v => kvSet d kv.1 (mergeVal (kvGet? d kv.1) v)
    | FieldInput.serverTimestamp => d) doc
  data.foldl (fun d kv =>
    match kv.2 with
    | FieldInput.value _ => d
    | FieldInput.serverTimestamp => kvSet d kv.1 (JVal.ts now)) plain

/-- `setDoc(doc(db, 'users', id), data, { merge: true })` at time `now`: the
data is merged into the document, which is created when it is missing. -/
def setDocMerge (w : World) (id : String) (data : WriteData) (now : Nat) :
    Except String Unit × World :=
  match w.call (StoreCall.setDoc id data) with
  | (some e, w1) => (Except.error e, w1)
  | (none, w1) =>
    let current : Obj :=
      match kvGet? w1.users id with
      | some d => d
      | none => []
    (Except.ok (), { w1 with users := kvSet w1.users id (mergeData now current data) })

/-- The state of the login form that `saveUserData` reads. -/
structure LoginForm where
  email : String
  rememberMe : Bool

/-- The object literal of lines 33-39. -/
def loginUpdateData (current : Obj) (rememberMe : Bool) : WriteData :=
  [ ("lastLogin", FieldInput.serverTimestamp),
    ("settings", FieldInput.value
      (JVal.obj (kvSet (kvAssign [] (spreadOf (Obj.get current "settings")))
        "rememberMe" (JVal.bool rememberMe)))) ]

/-- The object literal of lines 42-52. -/
def loginCreateData (form : LoginForm) (uid authProvider : String) : WriteData :=
  [ ("uid", FieldInput.value (JVal.str uid)),
    ("email", FieldInput.value (JVal.str form.email)),
    ("authProvider", FieldInput.value (JVal.str authProvider)),
    ("createdAt", FieldInput.serverTimestamp),
    ("lastLogin", FieldInput.serverTimestamp),
    ("settings", FieldInput.value (JVal.obj [("rememberMe", JVal.bool form.rememberMe)])),
    ("accountStatus", FieldInput.value (JVal.str "active")) ]

/-- The `try` block of `saveUserData`, lines 25-53 of the login screen. -/
def LoginScreen.saveUserDataTry (form : LoginForm) (uid authProvider : String) (now : Nat)
    (w : World) : Except String Unit × World :=
  match getDoc w uid with
  | (Except.error e, w1) => (Except.error e, w1)
  | (Except.ok (some current), w1) =>
    setDocMerge w1 uid (loginUpdateData current form.rememberMe) now
  | (Except.ok none, w1) => setDoc w1 uid (loginCreateData form uid authProvider) now

/-- Lines 24-57 of the login screen: the `try` block, and the `catch` that
throws "Failed to save user data". -/
def LoginScreen.saveUserData (form : LoginForm) (uid authProvider : String) (now : Nat)
    (w : World) : Except String Unit × World :=
  match LoginScreen.saveUserDataTry form uid authProvider now w with
  | (Except.error _, w1) => (Except.error "Failed to save user data", w1)
  | (Except.ok x, w1) => (Except.ok x, w1)

/-- A store holding a profile for `u1` with the settings `{theme: "dark"}`,
last logged in at time 1. -/
def exLoginWorld : World :=
  { users := [("u1", [("uid", JVal.str "u1"),
      ("settings", JVal.obj [("theme", JVal.str "dark")]), ("lastLogin", JVal.ts 1)])],
    pending := [], log := [] }

/-! ## Avatar initials (`Dashboard.jsx` lines 228-238, `GroceryScreen.jsx`
lines 342-352, `HistoryScreen.jsx` lines 150-160) -/

/-- The method `toUpperCase` on the letters a-z. -/
def toUpperCase (s : String) : String := String.mk (s.toList.map Char.toUpper)

/-- Split a list of characters at every occurrence of `sep`. -/
def splitChars (sep : Char) : List Char → List (List Char)
  | [] => [[]]
  | c :: cs =>
    if c = sep then [] :: splitChars sep cs
    else
      match splitChars sep cs with
      | [] => [[c]]
      | seg :: segs => (c :: seg) :: segs

/-- The call `name.split(' ')`. -/
def splitOnSpace (s : String) : List String :=
  (splitChars ' ' s.toList).map String.mk

/-- The text `${part[0]}` of a template literal: the first character of the
part, and "undefined" when the part is empty. -/
def firstCharText (part : String) : String :=
  match part.toList with
  | [] => "undefined"
  | c :: _ => String.singleton c

/-- The call `s.substring(0, 2)`. -/
def substring02 (s : String) : String := String.mk (s.toList.take 2)

/-- Line 237: `user?.email?.substring(0, 2)?.toUpperCase() || 'RT'`. -/
def emailInitials (c : Container) : Except String String :=
  match c.user with
  | none => Except.ok "RT"
  | some user =>
    match user.email with
    | JVal.undef => Except.ok "RT"
    | JVal.null => Except.ok "RT"
    | JVal.str email =>
      let initials := toUpperCase (substring02 email)
      if initials ≠ "" then Except.ok initials else Except.ok "RT"
    | _ => Except.error "user.email.substring is not a function"

/-- The function `getUserInitials` of the three screens, on the container
state they read. -/
def getUserInitials (c : Container) : Except String String :=
  let name : JVal :=
    match c.userDetails with
    | some d => Obj.get d "name"
    | none => JVal.undef
  if truthy name then
    match name with
    | JVal.str n =>
      let nameParts := splitOnSpace n
      if nameParts.length ≥ 2 then
        Except.ok (toUpperCase
          (firstCharText (nameParts.getD 0 "") ++ firstCharText (nameParts.getD 1 "")))
      else Except.ok (toUpperCase (substring02 n))
    | _ => Except.error "userDetails.name.split is not a function"
  else emailInitials c

/-- A container whose cached profile has the given name and whose user has
the email "ada@example.org". -/
def exNamed (name : String) : Container :=
  { user := some { uid := "u1", email := JVal.str "ada@example.org", providerData := [] },
    userDetails := some [("name", JVal.str name)], loading := false, error := none }

/-! ## Theorems -/

/-! ### Keyed lists -/

theorem kvGet?_kvSet_self {α : Type} (o : List (String × α)) (k : String) (v : α) :
    kvGet? (kvSet o k v) k = some v := by
  induction o with
  | nil => simp [kvSet, kvGet?]
  | cons hd tl ih =>
    obtain ⟨k0, v0⟩ := hd
    by_cases h : k0 = k
    · simp [kvSet, kvGet?, h]
    · simp [kvSet, kvGet?, h, ih]

theorem kvGet?_kvSet_ne {α : Type} (o : List (String × α)) (k k' : String) (v : α)
    (hne : k ≠ k') : kvGet? (kvSet o k v) k' = kvGet? o k' := by
  induction o with
  | nil => simp [kvSet, kvGet?, hne]
  | cons hd tl ih =>
    obtain ⟨k0, v0⟩ := hd
    by_cases h : k0 = k
    · subst h
      simp [kvSet, kvGet?, hne]
    · by_cases h' : k0 = k'
      · subst h'
        simp [kvSet, kvGet?, h]
      · simp [kvSet, kvGet?, h, h', ih]

theorem mem_kvKeys_kvSet {α : Type} (o : List (String × α)) (k k' : String) (v : α) :
    k' ∈ kvKeys (kvSet o k v) ↔ k' = k ∨ k' ∈ kvKeys o := by
  induction o with
  | nil => simp [kvSet, kvKeys]
  | cons hd tl ih =>
    obtain ⟨k0, v0⟩ := hd
    by_cases h : k0 = k
    · subst h
      simp [kvSet, kvKeys]
    · have ih' : k' ∈ List.map Prod.fst (kvSet tl k v) ↔ k' = k ∨ k' ∈ List.map Prod.fst tl := ih
      simp only [kvSet, h, if_false, kvKeys, List.map_cons, List.mem_cons, ih']
      tauto

theorem kvKeys_kvSet_nodup {α : Type} (o : List (String × α)) (k : String) (v : α)
    (h : (kvKeys o).Nodup) : (kvKeys (kvSet o k v)).Nodup := by
  induction o with
  | nil => simp [kvSet, kvKeys]
  | cons hd tl ih =>
    obtain ⟨k0, v0⟩ := hd
    have h' : k0 ∉ kvKeys tl ∧ (kvKeys tl).Nodup := by
      simpa [kvKeys] using h
    by_cases hk : k0 = k
    · subst hk
      simpa [kvSet, kvKeys] using h
    · have hmem : k0 ∉ kvKeys (kvSet tl k v) := by
        rw [mem_kvKeys_kvSet]
        rintro (h1 | h1)
        · exact hk h1
        · exact h'.1 h1
      have := ih h'.2
      simp only [kvSet, hk, if_false]
      simp only [kvKeys, List.map_cons, List.nodup_cons]
      exact ⟨hmem, this⟩

theorem kvGet?_eq_none_iff {α : Type} (o : List (String × α)) (k : String) :
    kvGet? o k = none ↔ k ∉ kvKeys o := by
  induction o with
  | nil => simp [kvGet?, kvKeys]
  | cons hd tl ih =>
    obtain ⟨k0, v0⟩ := hd
    have ih' : kvGet? tl k = none ↔ k ∉ List.map Prod.fst tl := ih
    by_cases h : k0 = k
    · simp [kvGet?, kvKeys, h]
    · have h2 : ¬ k = k0 := fun e => h e.symm
      simp [kvGet?, kvKeys, h, h2, ih']

theorem kvGet?_kvAssign_of_not_mem {α : Type} (s t : List (String × α)) (k : String)
    (h : k ∉ kvKeys s) : kvGet? (kvAssign t s) k = kvGet? t k := by
  induction s generalizing t with
  | nil => rfl
  | cons hd tl ih =>
    obtain ⟨k0, v0⟩ := hd
    have h' : ¬ k = k0 ∧ k ∉ kvKeys tl := by simpa [kvKeys] using h
    have step : kvAssign t ((k0, v0) :: tl) = kvAssign (kvSet t k0 v0) tl := rfl
    rw [step, ih _ h'.2, kvGet?_kvSet_ne _ _ _ _ (fun e => h'.1 e.symm)]

theorem kvGet?_kvAssign_of_nodup {α : Type} (s t : List (String × α)) (k : String) (v : α)
    (hs : (kvKeys s).Nodup) (h : kvGet? s k = some v) :
    kvGet? (kvAssign t s) k = some v := by
  induction s generalizing t with
  | nil => simp [kvGet?] at h
  | cons hd tl ih =>
    obtain ⟨k0, v0⟩ := hd
    have hs' : k0 ∉ kvKeys tl ∧ (kvKeys tl).Nodup := by simpa [kvKeys] using hs
    have step : kvAssign t ((k0, v0) :: tl) = kvAssign (kvSet t k0 v0) tl := rfl
    rw [step]
    by_cases hk : k0 = k
    · subst hk
      have hv : v0 = v := by simpa [kvGet?] using h
      rw [kvGet?_kvAssign_of_not_mem _ _ _ hs'.1, kvGet?_kvSet_self, hv]
    · have h2 : kvGet? tl k = some v := by simpa [kvGet?, hk] using h
      exact ih _ hs'.2 h2

theorem mem_kvKeys_kvAssign {α : Type} (s t : List (String × α)) (k : String) :
    k ∈ kvKeys (kvAssign t s) ↔ k ∈ kvKeys t ∨ k ∈ kvKeys s := by
  induction s generalizing t with
  | nil => simp [kvAssign, kvKeys]
  | cons hd tl ih =>
    obtain ⟨k0, v0⟩ := hd
    have step : kvAssign t ((k0, v0) :: tl) = kvAssign (kvSet t k0 v0) tl := rfl
    rw [step, ih, mem_kvKeys_kvSet]
    simp only [kvKeys, List.map_cons, List.mem_cons]
    tauto

theorem kvKeys_kvAssign_nodup {α : Type} (s t : List (String × α))
    (h : (kvKeys t).Nodup) : (kvKeys (kvAssign t s)).Nodup := by
  induction s generalizing t with
  | nil => exact h
  | cons hd tl ih =>
    obtain ⟨k0, v0⟩ := hd
    have step : kvAssign t ((k0, v0) :: tl) = kvAssign (kvSet t k0 v0) tl := rfl
    rw [step]
    exact ih _ (kvKeys_kvSet_nodup _ _ _ h)

/-! ### updateUserSettings -/

/-- The settings object that lines 121-124 build from stored settings `S` and
the argument `P`. -/
theorem settings_merge_spec (S P : Obj) (hS : Obj.WF S) (hP : Obj.WF P) :
    MergedSettings S P (kvAssign (kvAssign [] S) P) := by
  refine ⟨?_, ?_, ?_, ?_⟩
  · exact kvKeys_kvAssign_nodup _ _ (kvKeys_kvAssign_nodup _ _ (by simp [kvKeys]))
  · intro k
    show k ∈ kvKeys (kvAssign (kvAssign [] S) P) ↔ k ∈ kvKeys S ∨ k ∈ kvKeys P
    rw [mem_kvKeys_kvAssign, mem_kvKeys_kvAssign]
    simp [kvKeys]
  · intro k hk
    show kvGet? (kvAssign (kvAssign [] S) P) k = kvGet? P k
    cases hv : kvGet? P k with
    | none => exact absurd hk ((kvGet?_eq_none_iff P k).1 hv)
    | some v => exact kvGet?_kvAssign_of_nodup P _ k v hP hv
  · intro k hk
    show kvGet? (kvAssign (kvAssign [] S) P) k = kvGet? S k
    rw [kvGet?_kvAssign_of_not_mem P _ k hk]
    cases hv : kvGet? S k with
    | none =>
      rw [kvGet?_kvAssign_of_not_mem S _ k ((kvGet?_eq_none_iff S k).1 hv)]
      rfl
    | some v => exact kvGet?_kvAssign_of_nodup S _ k v hS hv

theorem updateUserSettings_of_ok (P : Obj) (now : Nat) (c : Container) (w : World)
    (u : Identity) (cur S : Obj)
    (hu : c.user = some u) (hdoc : kvGet? w.users u.uid = some cur)
    (hS : cur.get? "settings" = some (JVal.obj S)) (hok : w.nextOk 3 = true) :
    let M : Obj := kvAssign (kvAssign [] S) P
    let new : Obj := kvSet (kvSet cur "settings" (JVal.obj M)) "updatedAt" (JVal.ts now)
    updateUserSettings (JVal.obj P) now c w =
      (Except.ok (JVal.obj M), { c with userDetails := some new },
        { users := kvSet w.users u.uid new,
          pending := w.pending.tail.tail.tail,
          log := w.log ++ [StoreCall.getDoc u.uid,
            StoreCall.updateDoc u.uid (settingsUpdateData cur (JVal.obj P)),
            StoreCall.getDoc u.uid] }) := by
  intro M new
  have hget : Obj.get cur "settings" = JVal.obj S := by
    simp [Obj.get, hS]
  have hdata : settingsUpdateData cur (JVal.obj P)
      = [("settings", FieldInput.value (JVal.obj M)),
         ("updatedAt", FieldInput.serverTimestamp)] := by
    simp [settingsUpdateData, hget, spreadOf, M]
  have hp1 : fieldPath "settings" = ["settings"] := by decide
  have hp2 : fieldPath "updatedAt" = ["updatedAt"] := by decide
  have happ : applyUpdate now cur (settingsUpdateData cur (JVal.obj P)) = new := by
    rw [hdata]
    simp [applyUpdate, hp1, hp2, setPath, new]
  have hnew : Obj.get new "settings" = JVal.obj M := by
    have : kvGet? new "settings" = some (JVal.obj M) := by
      show kvGet? (kvSet (kvSet cur "settings" (JVal.obj M)) "updatedAt" (JVal.ts now))
        "settings" = _
      rw [kvGet?_kvSet_ne _ _ _ _ (by decide), kvGet?_kvSet_self]
    simp [Obj.get, Obj.get?, this]
  obtain ⟨users, pending, log⟩ := w
  simp only at hdoc
  rcases pending with _ | ⟨a, _ | ⟨b, _ | ⟨e, rest⟩⟩⟩ <;>
    simp [World.nextOk] at hok <;>
    simp [updateUserSettings, updateUserSettingsTry, getDoc, updateDoc, World.call, hu,
      hdoc, hok, happ, kvGet?_kvSet_self, hnew]

/-! ### Write requests -/

theorem kvKeys_asValues (o : Obj) : kvKeys (asValues o) = kvKeys o := by
  induction o with
  | nil => rfl
  | cons hd tl ih =>
    have ih' : List.map Prod.fst (asValues tl) = List.map Prod.fst tl := ih
    simp [asValues, kvKeys]

theorem kvGet?_asValues (o : Obj) (k : String) :
    kvGet? (asValues o) k = (kvGet? o k).map FieldInput.value := by
  induction o with
  | nil => rfl
  | cons hd tl ih =>
    obtain ⟨k0, v0⟩ := hd
    have ih' : kvGet? (List.map (fun kv => (kv.1, FieldInput.value kv.2)) tl) k
        = (kvGet? tl k).map FieldInput.value := ih
    by_cases h : k0 = k
    · simp [asValues, kvGet?, h]
    · simp [asValues, kvGet?, h, ih']

theorem kvGet?_resolveData (now : Nat) (data : WriteData) (k : String) :
    kvGet? (resolveData now data) k = (kvGet? data k).map (resolveField now) := by
  induction data with
  | nil => rfl
  | cons hd tl ih =>
    obtain ⟨k0, v0⟩ := hd
    have step : resolveData now ((k0, v0) :: tl)
        = (k0, resolveField now v0) :: resolveData now tl := by
      cases v0 <;> rfl
    rw [step]
    by_cases h : k0 = k
    · simp [kvGet?, h]
    · simp [kvGet?, h, ih]

/-! ### updateUserProfile -/

theorem updateUserProfile_create_of_ok (userData : JVal) (now : Nat) (c : Container)
    (w : World) (u : Identity)
    (hu : c.user = some u) (hdoc : kvGet? w.users u.uid = none)
    (hok : w.nextOk 3 = true) :
    let D : Obj := resolveData now (profileCreateData u userData)
    updateUserProfile userData now c w =
      (Except.ok (JVal.obj D), { c with userDetails := some D },
        { users := kvSet w.users u.uid D,
          pending := w.pending.tail.tail.tail,
          log := w.log ++ [StoreCall.getDoc u.uid,
            StoreCall.setDoc u.uid (profileCreateData u userData),
            StoreCall.getDoc u.uid] }) := by
  intro D
  obtain ⟨users, pending, log⟩ := w
  simp only at hdoc
  rcases pending with _ | ⟨a, _ | ⟨b, _ | ⟨e, rest⟩⟩⟩ <;>
    simp [World.nextOk] at hok <;>
    simp [updateUserProfile, updateUserProfileTry, getDoc, setDoc, World.call, hu,
      hdoc, hok, kvGet?_kvSet_self, docData, D]

theorem updateUserProfile_update_of_ok (userData : JVal) (now : Nat) (c : Container)
    (w : World) (u : Identity) (cur : Obj)
    (hu : c.user = some u) (hdoc : kvGet? w.users u.uid = some cur)
    (hok : w.nextOk 3 = true) :
    let D : Obj := applyUpdate now cur (profileUpdateData userData)
    updateUserProfile userData now c w =
      (Except.ok (JVal.obj D), { c with userDetails := some D },
        { users := kvSet w.users u.uid D,
          pending := w.pending.tail.tail.tail,
          log := w.log ++ [StoreCall.getDoc u.uid,
            StoreCall.updateDoc u.uid (profileUpdateData userData),
            StoreCall.getDoc u.uid] }) := by
  intro D
  obtain ⟨users, pending, log⟩ := w
  simp only at hdoc
  rcases pending with _ | ⟨a, _ | ⟨b, _ | ⟨e, rest⟩⟩⟩ <;>
    simp [World.nextOk] at hok <;>
    simp [updateUserProfile, updateUserProfileTry, getDoc, updateDoc, World.call, hu,
      hdoc, hok, kvGet?_kvSet_self, docData, D]

/-- A field the caller does not supply keeps the value of the literal of
lines 84-89. -/
theorem profileCreate_default (u : Identity) (F : Obj) (now : Nat) (k : String)
    (hk : k ∉ F.keys) :
    kvGet? (resolveData now (profileCreateData u (JVal.obj F))) k = (kvGet?
      [ ("uid", FieldInput.value (JVal.str u.uid)),
        ("email", FieldInput.value u.email),
        ("authProvider", FieldInput.value (JVal.str (authProviderOf u))),
        ("createdAt", FieldInput.serverTimestamp),
        ("lastLogin", FieldInput.serverTimestamp),
        ("accountStatus", FieldInput.value (JVal.str "active")) ] k).map
      (resolveField now) := by
  rw [kvGet?_resolveData]
  unfold profileCreateData
  simp only [spreadOf]
  rw [kvGet?_kvAssign_of_not_mem]
  rw [kvKeys_asValues]
  exact hk

/-- A field the caller supplies is stored with the supplied value. -/
theorem profileCreate_supplied (u : Identity) (F : Obj) (now : Nat) (hF : Obj.WF F)
    (k : String) (v : JVal) (hk : F.get? k = some v) :
    kvGet? (resolveData now (profileCreateData u (JVal.obj F))) k = some v := by
  have h1 : kvGet? (asValues F) k = some (FieldInput.value v) := by
    rw [kvGet?_asValues]
    have : kvGet? F k = some v := hk
    simp [this]
  have hwf : (kvKeys (asValues F)).Nodup := by
    rw [kvKeys_asValues]
    exact hF
  rw [kvGet?_resolveData]
  unfold profileCreateData
  simp only [spreadOf]
  rw [kvGet?_kvAssign_of_nodup _ _ k _ hwf h1]
  rfl

/-- The fields of a freshly created profile. -/
theorem profileCreate_fields (u : Identity) (F : Obj) (now : Nat) (hF : Obj.WF F) :
    CreatedProfile u F now (resolveData now (profileCreateData u (JVal.obj F))) := by
  refine ⟨fun k v hk => profileCreate_supplied u F now hF k v hk, ?_, ?_, ?_, ?_, ?_⟩ <;>
    intro hk <;>
    (show kvGet? (resolveData now (profileCreateData u (JVal.obj F))) _ = _) <;>
    rw [profileCreate_default u F now _ hk] <;>
    simp [kvGet?, resolveField]

/-! ### Updates at field paths -/

theorem kvGet?_setPath_of_head_ne (p : List String) (v : JVal) (o : Obj) (k : String)
    (h : p.head? ≠ some k) : kvGet? (setPath p v o) k = kvGet? o k := by
  match p, h with
  | [], _ => rfl
  | [k0], h =>
    have hne : k0 ≠ k := fun e => h (by simp [e])
    simp [setPath, kvGet?_kvSet_ne _ _ _ _ hne]
  | k0 :: k1 :: rest, h =>
    have hne : k0 ≠ k := fun e => h (by simp [e])
    simp [setPath, kvGet?_kvSet_ne _ _ _ _ hne]

theorem applyUpdate_eq (now : Nat) (doc : Obj) (data : WriteData) :
    applyUpdate now doc data = applyStamps now (applyPlain doc data) data := rfl

theorem kvGet?_applyPlain_of_head_ne (data : WriteData) (doc : Obj) (k : String)
    (h : ∀ kv ∈ data, (fieldPath kv.1).head? ≠ some k) :
    kvGet? (applyPlain doc data) k = kvGet? doc k := by
  induction data generalizing doc with
  | nil => rfl
  | cons hd tl ih =>
    obtain ⟨k0, f0⟩ := hd
    have hhd : (fieldPath k0).head? ≠ some k := h (k0, f0) (by simp)
    have htl : ∀ kv ∈ tl, (fieldPath kv.1).head? ≠ some k :=
      fun kv hkv => h kv (by simp [hkv])
    cases f0 with
    | value v =>
      have step : applyPlain doc ((k0, FieldInput.value v) :: tl)
          = applyPlain (setPath (fieldPath k0) v doc) tl := rfl
      rw [step, ih _ htl, kvGet?_setPath_of_head_ne _ _ _ _ hhd]
    | serverTimestamp =>
      have step : applyPlain doc ((k0, FieldInput.serverTimestamp) :: tl)
          = applyPlain doc tl := rfl
      rw [step, ih _ htl]

theorem kvGet?_applyStamps_of_head_ne (now : Nat) (data : WriteData) (doc : Obj)
    (k : String) (h : ∀ kv ∈ data, (fieldPath kv.1).head? ≠ some k) :
    kvGet? (applyStamps now doc data) k = kvGet? doc k := by
  induction data generalizing doc with
  | nil => rfl
  | cons hd tl ih =>
    obtain ⟨k0, f0⟩ := hd
    have hhd : (fieldPath k0).head? ≠ some k := h (k0, f0) (by simp)
    have htl : ∀ kv ∈ tl, (fieldPath kv.1).head? ≠ some k :=
      fun kv hkv => h kv (by simp [hkv])
    cases f0 with
    | value v =>
      have step : applyStamps now doc ((k0, FieldInput.value v) :: tl)
          = applyStamps now doc tl := rfl
      rw [step, ih _ htl]
    | serverTimestamp =>
      have step : applyStamps now doc ((k0, FieldInput.serverTimestamp) :: tl)
          = applyStamps now (setPath (fieldPath k0) (JVal.ts now) doc) tl := rfl
      rw [step, ih _ htl, kvGet?_setPath_of_head_ne _ _ _ _ hhd]

/-- A field no key of the request points into is left as it was. -/
theorem kvGet?_applyUpdate_of_head_ne (now : Nat) (data : WriteData) (doc : Obj)
    (k : String) (h : ∀ kv ∈ data, (fieldPath kv.1).head? ≠ some k) :
    kvGet? (applyUpdate now doc data) k = kvGet? doc k := by
  rw [applyUpdate_eq, kvGet?_applyStamps_of_head_ne now data _ k h,
    kvGet?_applyPlain_of_head_ne data doc k h]

/-- When the only stamped key is the plain key `k`, the stamps keep `k` stamped. -/
theorem kvGet?_applyStamps_keep (now : Nat) (data : WriteData) (doc : Obj) (k : String)
    (hk : fieldPath k = [k])
    (honly : ∀ kv ∈ data, kv.2 = FieldInput.serverTimestamp → kv.1 = k)
    (hdoc : kvGet? doc k = some (JVal.ts now)) :
    kvGet? (applyStamps now doc data) k = some (JVal.ts now) := by
  induction data generalizing doc with
  | nil => exact hdoc
  | cons hd tl ih =>
    obtain ⟨k0, f0⟩ := hd
    have htl : ∀ kv ∈ tl, kv.2 = FieldInput.serverTimestamp → kv.1 = k :=
      fun kv hkv => honly kv (by simp [hkv])
    cases f0 with
    | value v => exact ih doc htl hdoc
    | serverTimestamp =>
      have hk0 : k0 = k := honly (k0, FieldInput.serverTimestamp) (by simp) rfl
      subst hk0
      have step : applyStamps now doc ((k0, FieldInput.serverTimestamp) :: tl)
          = applyStamps now (setPath (fieldPath k0) (JVal.ts now) doc) tl := rfl
      rw [step]
      apply ih _ htl
      rw [hk]
      exact kvGet?_kvSet_self _ _ _

/-- When the only stamped key is the plain key `k` and the request stamps it,
the updated document holds the time of the write at `k`. -/
theorem kvGet?_applyStamps_stamped (now : Nat) (data : WriteData) (doc : Obj) (k : String)
    (hk : fieldPath k = [k])
    (honly : ∀ kv ∈ data, kv.2 = FieldInput.serverTimestamp → kv.1 = k)
    (hmem : (k, FieldInput.serverTimestamp) ∈ data) :
    kvGet? (applyStamps now doc data) k = some (JVal.ts now) := by
  induction data generalizing doc with
  | nil => simp at hmem
  | cons hd tl ih =>
    obtain ⟨k0, f0⟩ := hd
    have htl : ∀ kv ∈ tl, kv.2 = FieldInput.serverTimestamp → kv.1 = k :=
      fun kv hkv => honly kv (by simp [hkv])
    cases f0 with
    | value v =>
      have hmem' : (k, FieldInput.serverTimestamp) ∈ tl := by
        simpa using hmem
      exact ih doc htl hmem'
    | serverTimestamp =>
      have hk0 : k0 = k := honly (k0, FieldInput.serverTimestamp) (by simp) rfl
      subst hk0
      have step : applyStamps now doc ((k0, FieldInput.serverTimestamp) :: tl)
          = applyStamps now (setPath (fieldPath k0) (JVal.ts now) doc) tl := rfl
      rw [step]
      apply kvGet?_applyStamps_keep now tl _ k0 hk htl
      rw [hk]
      exact kvGet?_kvSet_self _ _ _

theorem mem_kvSet {α : Type} (o : List (String × α)) (k : String) (v : α)
    (e : String × α) (h : e ∈ kvSet o k v) : e ∈ o ∨ e = (k, v) := by
  induction o with
  | nil => simpa [kvSet] using h
  | cons hd tl ih =>
    obtain ⟨k0, v0⟩ := hd
    by_cases hk : k0 = k
    · subst hk
      simp only [kvSet, if_true, List.mem_cons] at h
      rcases h with h | h
      · exact Or.inr h
      · exact Or.inl (by simp [h])
    · simp only [kvSet, hk, if_false, List.mem_cons] at h
      rcases h with h | h
      · exact Or.inl (by simp [h])
      · rcases ih h with h' | h'
        · exact Or.inl (by simp [h'])
        · exact Or.inr h'

theorem mem_kvSet_self {α : Type} (o : List (String × α)) (k : String) (v : α) :
    (k, v) ∈ kvSet o k v := by
  induction o with
  | nil => simp [kvSet]
  | cons hd tl ih =>
    obtain ⟨k0, v0⟩ := hd
    by_cases hk : k0 = k
    · simp [kvSet, hk]
    · simp [kvSet, hk, ih]

theorem mem_kvAssign {α : Type} (s t : List (String × α)) (e : String × α)
    (h : e ∈ kvAssign t s) : e ∈ t ∨ e ∈ s := by
  induction s generalizing t with
  | nil => exact Or.inl h
  | cons hd tl ih =>
    obtain ⟨k0, v0⟩ := hd
    have step : kvAssign t ((k0, v0) :: tl) = kvAssign (kvSet t k0 v0) tl := rfl
    rw [step] at h
    rcases ih _ h with h' | h'
    · rcases mem_kvSet _ _ _ _ h' with h'' | h''
      · exact Or.inl h''
      · exact Or.inr (by simp [h''])
    · exact Or.inr (by simp [h'])

/-- Every entry of the update request of lines 77-80 is a supplied field or
the `updatedAt` stamp. -/
theorem mem_profileUpdateData (F : Obj) (e : String × FieldInput)
    (h : e ∈ profileUpdateData (JVal.obj F)) :
    (e.1 ∈ F.keys ∧ ∃ v, e.2 = FieldInput.value v)
      ∨ e = ("updatedAt", FieldInput.serverTimestamp) := by
  unfold profileUpdateData at h
  rcases mem_kvSet _ _ _ _ h with h' | h'
  · left
    rcases mem_kvAssign _ _ _ h' with h'' | h''
    · simp at h''
    · simp only [spreadOf, asValues, List.mem_map] at h''
      obtain ⟨kv, hkv, rfl⟩ := h''
      refine ⟨?_, kv.2, rfl⟩
      show kv.1 ∈ List.map Prod.fst F
      exact List.mem_map_of_mem _ hkv
  · exact Or.inr h'

/-- An update through `updateUserProfile` stamps `updatedAt` with the time of
the write. -/
theorem profileUpdate_updatedAt (F : Obj) (now : Nat) (cur : Obj) :
    kvGet? (applyUpdate now cur (profileUpdateData (JVal.obj F))) "updatedAt"
      = some (JVal.ts now) := by
  rw [applyUpdate_eq]
  apply kvGet?_applyStamps_stamped now _ _ "updatedAt" (by decide)
  · intro kv hkv hstamp
    rcases mem_profileUpdateData F kv hkv with ⟨_, v, hv⟩ | h
    · rw [hv] at hstamp
      cases hstamp
    · rw [h]
  · exact mem_kvSet_self _ _ _

/-- An update through `updateUserProfile` leaves a field alone when no supplied
key points into it. -/
theorem profileUpdate_keeps (F : Obj) (now : Nat) (cur : Obj) (k : String)
    (hk : k ≠ "updatedAt")
    (hF : ∀ key ∈ F.keys, (fieldPath key).head? ≠ some k) :
    kvGet? (applyUpdate now cur (profileUpdateData (JVal.obj F))) k = kvGet? cur k := by
  apply kvGet?_applyUpdate_of_head_ne
  intro kv hkv
  rcases mem_profileUpdateData F kv hkv with ⟨hmem, _⟩ | h
  · exact hF _ hmem
  · rw [h]
    have hp : fieldPath "updatedAt" = ["updatedAt"] := by decide
    simp only [hp, List.head?_cons]
    intro e
    exact hk (Option.some.inj e).symm

/-! ### checkProfileComplete -/

theorem truthy_get_eq_presentTruthy (d : Obj) (key : String) :
    truthy (Obj.get d key) = presentTruthy d key := by
  unfold Obj.get presentTruthy
  cases d.get? key <;> rfl

/-- C1: `checkProfileComplete` on an object snapshot is the conjunction of
"present and truthy" over name, email, organization and agreedToTerms (so it is
false in each of the 15 combinations with a field missing); on any argument it
is true exactly when the snapshot judged is an object with the four fields
present and truthy; it is false on `null`; with no argument it judges the
cached profile, and is false when that is absent. -/
theorem checkProfileComplete_spec (c : Container) (d : Obj) (arg : JVal) :
    checkProfileComplete c (JVal.obj d)
        = (presentTruthy d "name" && presentTruthy d "email"
            && presentTruthy d "organization" && presentTruthy d "agreedToTerms")
      ∧ (checkProfileComplete c arg = true ↔
          ∃ p, defaultParam arg c.userDetailsVal = JVal.obj p
            ∧ presentTruthy p "name" = true ∧ presentTruthy p "email" = true
            ∧ presentTruthy p "organization" = true
            ∧ presentTruthy p "agreedToTerms" = true)
      ∧ checkProfileComplete c JVal.null = false
      ∧ checkProfileComplete { c with userDetails := none } JVal.undef = false
      ∧ checkProfileComplete { c with userDetails := some d } JVal.undef
          = checkProfileComplete c (JVal.obj d) := by
  have hobj : ∀ (c' : Container) (p : Obj), checkProfileComplete c' (JVal.obj p)
      = (presentTruthy p "name" && presentTruthy p "email"
          && presentTruthy p "organization" && presentTruthy p "agreedToTerms") := by
    intro c' p
    have ht : truthy (JVal.obj p) = true := rfl
    simp [checkProfileComplete, defaultParam, ht, requiredFields, JVal.prop,
      truthy_get_eq_presentTruthy, Bool.and_assoc]
  have hgen : ∀ u : JVal, ((if !truthy u then false
        else requiredFields.all (fun field => truthy (u.prop field))) = true ↔
      ∃ p, u = JVal.obj p
        ∧ presentTruthy p "name" = true ∧ presentTruthy p "email" = true
        ∧ presentTruthy p "organization" = true
        ∧ presentTruthy p "agreedToTerms" = true) := by
    intro u
    cases u with
    | obj p =>
      have ht : truthy (JVal.obj p) = true := rfl
      simp [ht, requiredFields, JVal.prop, truthy_get_eq_presentTruthy, and_assoc]
    | undef => simp [truthy]
    | null => simp [truthy]
    | bool b => cases b <;> simp [truthy, requiredFields, JVal.prop]
    | num n => simp [truthy, requiredFields, JVal.prop]
    | str s => simp [truthy, requiredFields, JVal.prop]
    | ts t => simp [truthy, requiredFields, JVal.prop]
    | arr l => simp [truthy, requiredFields, JVal.prop]
  refine ⟨hobj c d, ?_, ?_, ?_, ?_⟩
  · exact hgen (defaultParam arg c.userDetailsVal)
  · simp [checkProfileComplete, defaultParam, truthy]
  · simp [checkProfileComplete, defaultParam, Container.userDetailsVal, truthy]
  · simp [checkProfileComplete, defaultParam, Container.userDetailsVal]

/-! ### Claims on updateUserSettings and updateUserProfile -/

/-- C2: with an identity cached, a stored profile whose settings are the object
`S`, and the three store calls going through, `updateUserSettings(P)` returns a
settings object `M` that is also the `settings` field of the document now stored
and cached, and `M` is `S` merged key by key with `P`: keys of `S` and of `P`,
the value of `P` on the keys of `P`, the value of `S` elsewhere. On the settings
`{language: "en", theme: "light"}` and `{theme: "dark"}` it is
`{language: "en", theme: "dark"}`. -/
theorem updateUserSettings_merges (P : Obj) (now : Nat) (c : Container) (w : World)
    (u : Identity) (cur S : Obj)
    (hu : c.user = some u) (hdoc : kvGet? w.users u.uid = some cur)
    (hS : cur.get? "settings" = some (JVal.obj S))
    (hSwf : Obj.WF S) (hPwf : Obj.WF P) (hok : w.nextOk 3 = true) :
    ∃ M new : Obj,
      (updateUserSettings (JVal.obj P) now c w).1 = Except.ok (JVal.obj M)
        ∧ kvGet? (updateUserSettings (JVal.obj P) now c w).2.2.users u.uid = some new
        ∧ (updateUserSettings (JVal.obj P) now c w).2.1.userDetails = some new
        ∧ new.get? "settings" = some (JVal.obj M)
        ∧ MergedSettings S P M
        ∧ (S = exSettings → P = exPartial → M = exMerged) := by
  refine ⟨kvAssign (kvAssign [] S) P,
    kvSet (kvSet cur "settings" (JVal.obj (kvAssign (kvAssign [] S) P))) "updatedAt"
      (JVal.ts now), ?_⟩
  have h := updateUserSettings_of_ok P now c w u cur S hu hdoc hS hok
  simp only at h
  rw [h]
  refine ⟨rfl, ?_, rfl, ?_, settings_merge_spec S P hSwf hPwf, ?_⟩
  · exact kvGet?_kvSet_self _ _ _
  · show kvGet? _ "settings" = _
    rw [kvGet?_kvSet_ne _ _ _ _ (by decide), kvGet?_kvSet_self]
  · intro h1 h2
    subst h1 h2
    rfl

/-- The example of C2: settings `{theme: "dark"}` on stored settings
`{language: "en", theme: "light"}` return `{language: "en", theme: "dark"}`. -/
theorem updateUserSettings_merges_witness :
    (updateUserSettings (JVal.obj exPartial) 7 exContainer exSettingsWorld).1
      = Except.ok (JVal.obj exMerged) := by
  obtain ⟨M, new, h1, _, _, _, _, h6⟩ :=
    updateUserSettings_merges exPartial 7 exContainer exSettingsWorld exIdentity
      [("uid", JVal.str "u1"), ("settings", JVal.obj exSettings)] exSettings
      rfl rfl rfl (by simp [Obj.WF, Obj.keys, kvKeys, exSettings])
      (by simp [Obj.WF, Obj.keys, kvKeys, exPartial]) rfl
  rw [h1, h6 rfl rfl]

/-- C3: with an identity cached, no profile document stored for it and the
three store calls going through, `updateUserProfile(F)` creates a document `D`,
returns it and caches it; `D` holds every field of `F` with its supplied value
and, for the fields `F` does not supply, the uid and email of the identity,
`accountStatus = "active"`, and `createdAt` and `lastLogin` equal to the time of
the write. -/
theorem updateUserProfile_creates (F : Obj) (now : Nat) (c : Container) (w : World)
    (u : Identity)
    (hu : c.user = some u) (hdoc : kvGet? w.users u.uid = none)
    (hF : Obj.WF F) (hok : w.nextOk 3 = true) :
    ∃ D : Obj,
      (updateUserProfile (JVal.obj F) now c w).1 = Except.ok (JVal.obj D)
        ∧ kvGet? (updateUserProfile (JVal.obj F) now c w).2.2.users u.uid = some D
        ∧ (updateUserProfile (JVal.obj F) now c w).2.1.userDetails = some D
        ∧ CreatedProfile u F now D := by
  refine ⟨resolveData now (profileCreateData u (JVal.obj F)), ?_⟩
  have h := updateUserProfile_create_of_ok (JVal.obj F) now c w u hu hdoc hok
  simp only at h
  rw [h]
  exact ⟨rfl, kvGet?_kvSet_self _ _ _, rfl, profileCreate_fields u F now hF⟩

/-- The scenario of C3: identity `{id: "u1", email: "a@b.com"}`, no profile,
fields `{name: "A B"}`: the profile has name "A B", email "a@b.com" and
accountStatus "active". -/
theorem updateUserProfile_creates_witness :
    ∃ D : Obj,
      (updateUserProfile (JVal.obj [("name", JVal.str "A B")]) 5 exContainer
          exEmptyWorld).1 = Except.ok (JVal.obj D)
        ∧ D.get? "name" = some (JVal.str "A B")
        ∧ D.get? "email" = some (JVal.str "a@b.com")
        ∧ D.get? "accountStatus" = some (JVal.str "active") := by
  obtain ⟨D, h1, _, _, hname, _, hemail, hstatus, _, _⟩ :=
    updateUserProfile_creates [("name", JVal.str "A B")] 5 exContainer exEmptyWorld
      exIdentity rfl rfl (by simp [Obj.WF, Obj.keys, kvKeys]) rfl
  refine ⟨D, h1, hname "name" _ rfl, hemail ?_, hstatus ?_⟩ <;>
    simp [Obj.keys, kvKeys]

theorem nextOk_three_of_six (w : World) (h : w.nextOk 6 = true) :
    w.nextOk 3 = true
      ∧ ∀ (users : Store) (log : List StoreCall),
          World.nextOk { users := users, pending := w.pending.tail.tail.tail, log := log } 3
            = true := by
  obtain ⟨users, pending, log⟩ := w
  rcases pending with _ | ⟨a, _ | ⟨b, _ | ⟨e, rest⟩⟩⟩ <;>
    simp [World.nextOk] at h ⊢
  · exact h
  · exact h
  · obtain ⟨ha, hb, he, hrest⟩ := h
    refine ⟨⟨ha, hb, he⟩, ?_⟩
    exact hrest

/-- C4 as stated fails: a second call that supplies `createdAt` overwrites the
creation time. The first call (time 5, no document) stores `createdAt = 5`; the
second call (time 9, fields `{createdAt: 0}`) succeeds and leaves
`createdAt = 0`. -/
theorem createdAt_overwritten :
    exFirstCall.1.isOk = true
      ∧ storedField exFirstCall.2.2 "u1" "createdAt" = some (JVal.ts 5)
      ∧ exSecondCall.1.isOk = true
      ∧ storedField exSecondCall.2.2 "u1" "createdAt" = some (JVal.num 0)
      ∧ storedField exSecondCall.2.2 "u1" "createdAt" ≠ some (JVal.ts 5) := by
  refine ⟨rfl, rfl, rfl, rfl, ?_⟩
  have h : storedField exSecondCall.2.2 "u1" "createdAt" = some (JVal.num 0) := rfl
  rw [h]
  intro e
  cases e

/-- C4, amended: after a first `updateUserProfile` at time `T1` that creates the
document and a second one at time `T2`, all six store calls going through, the
document has `createdAt = T1` and `updatedAt = T2`, provided the first call does
not supply `createdAt` and no key supplied to the second call is `createdAt` or
a dotted path into it. -/
theorem updateUserProfile_twice (F1 F2 : Obj) (T1 T2 : Nat) (c : Container) (w : World)
    (u : Identity)
    (hu : c.user = some u) (hdoc : kvGet? w.users u.uid = none)
    (hok : w.nextOk 6 = true)
    (hF1 : "createdAt" ∉ F1.keys)
    (hF2 : ∀ key ∈ F2.keys, (fieldPath key).head? ≠ some "createdAt") :
    (updateUserProfile (JVal.obj F1) T1 c w).1.isOk = true
      ∧ storedField (updateUserProfile (JVal.obj F1) T1 c w).2.2 u.uid "createdAt"
          = some (JVal.ts T1)
      ∧ (updateUserProfile (JVal.obj F2) T2
            (updateUserProfile (JVal.obj F1) T1 c w).2.1
            (updateUserProfile (JVal.obj F1) T1 c w).2.2).1.isOk = true
      ∧ storedField (updateUserProfile (JVal.obj F2) T2
            (updateUserProfile (JVal.obj F1) T1 c w).2.1
            (updateUserProfile (JVal.obj F1) T1 c w).2.2).2.2 u.uid "createdAt"
          = some (JVal.ts T1)
      ∧ storedField (updateUserProfile (JVal.obj F2) T2
            (updateUserProfile (JVal.obj F1) T1 c w).2.1
            (updateUserProfile (JVal.obj F1) T1 c w).2.2).2.2 u.uid "updatedAt"
          = some (JVal.ts T2) := by
  obtain ⟨hok1, hok2⟩ := nextOk_three_of_six w hok
  have h1 := updateUserProfile_create_of_ok (JVal.obj F1) T1 c w u hu hdoc hok1
  simp only at h1
  have hD1 : kvGet? (resolveData T1 (profileCreateData u (JVal.obj F1))) "createdAt"
      = some (JVal.ts T1) := by
    rw [profileCreate_default u F1 T1 _ hF1]
    simp [kvGet?, resolveField]
  rw [h1]
  have h2 := updateUserProfile_update_of_ok (JVal.obj F2) T2
    { c with userDetails := some (resolveData T1 (profileCreateData u (JVal.obj F1))) }
    { users := kvSet w.users u.uid (resolveData T1 (profileCreateData u (JVal.obj F1))),
      pending := w.pending.tail.tail.tail,
      log := w.log ++ [StoreCall.getDoc u.uid,
        StoreCall.setDoc u.uid (profileCreateData u (JVal.obj F1)),
        StoreCall.getDoc u.uid] }
    u (resolveData T1 (profileCreateData u (JVal.obj F1))) hu
    (kvGet?_kvSet_self _ _ _) (hok2 _ _)
  simp only at h2
  rw [h2]
  refine ⟨rfl, ?_, rfl, ?_, ?_⟩
  · simp [storedField, kvGet?_kvSet_self, hD1]
  · simp only [storedField, kvGet?_kvSet_self, Option.bind]
    rw [profileUpdate_keeps F2 T2 _ "createdAt" (by decide) hF2, hD1]
  · simp only [storedField, kvGet?_kvSet_self, Option.bind]
    exact profileUpdate_updatedAt F2 T2 _

/-- An instance of the amended C4: create at time 5 with `{name: "A B"}`, update
at time 9 with `{organization: "Acme"}`. -/
theorem updateUserProfile_twice_witness :
    storedField (updateUserProfile (JVal.obj [("organization", JVal.str "Acme")]) 9
        (updateUserProfile (JVal.obj [("name", JVal.str "A B")]) 5 exContainer
          exEmptyWorld).2.1
        (updateUserProfile (JVal.obj [("name", JVal.str "A B")]) 5 exContainer
          exEmptyWorld).2.2).2.2 "u1" "createdAt" = some (JVal.ts 5)
      ∧ storedField (updateUserProfile (JVal.obj [("organization", JVal.str "Acme")]) 9
        (updateUserProfile (JVal.obj [("name", JVal.str "A B")]) 5 exContainer
          exEmptyWorld).2.1
        (updateUserProfile (JVal.obj [("name", JVal.str "A B")]) 5 exContainer
          exEmptyWorld).2.2).2.2 "u1" "updatedAt" = some (JVal.ts 9) := by
  have h := updateUserProfile_twice [("name", JVal.str "A B")]
    [("organization", JVal.str "Acme")] 5 9 exContainer exEmptyWorld exIdentity rfl rfl rfl
    (by simp [Obj.keys, kvKeys])
    (by
      intro key hkey
      have : key = "organization" := by simpa [Obj.keys, kvKeys] using hkey
      subst this
      decide)
  exact ⟨h.2.2.2.1, h.2.2.2.2⟩

/-! ### Claims on the identity check -/

/-- The cell `loading` is carried through `updateUserProfile` untouched and
unread. -/
theorem updateUserProfile_loading (userData : JVal) (now : Nat) (c : Container)
    (w : World) (b : Bool) :
    updateUserProfile userData now { c with loading := b } w
      = ((updateUserProfile userData now c w).1,
         { (updateUserProfile userData now c w).2.1 with loading := b },
         (updateUserProfile userData now c w).2.2) := by
  obtain ⟨user, details, loading, error⟩ := c
  cases user with
  | none => rfl
  | some u =>
    simp only [updateUserProfile, updateUserProfileTry]
    rcases h1 : getDoc w u.uid with ⟨r1, w1⟩
    cases r1 with
    | error e => rfl
    | ok userDoc =>
      simp only
      generalize (match userDoc with
        | some _ => updateDoc w1 u.uid (profileUpdateData userData) now
        | none => setDoc w1 u.uid (profileCreateData u userData) now) = written
      obtain ⟨r2, w2⟩ := written
      cases r2 with
      | error e => rfl
      | ok x =>
        simp only
        rcases h3 : getDoc w2 u.uid with ⟨r3, w3⟩
        cases r3 with
        | error e => rfl
        | ok updatedDoc => rfl

/-- The cell `loading` is carried through `updateUserSettings` untouched and
unread. -/
theorem updateUserSettings_loading (settings : JVal) (now : Nat) (c : Container)
    (w : World) (b : Bool) :
    updateUserSettings settings now { c with loading := b } w
      = ((updateUserSettings settings now c w).1,
         { (updateUserSettings settings now c w).2.1 with loading := b },
         (updateUserSettings settings now c w).2.2) := by
  obtain ⟨user, details, loading, error⟩ := c
  cases user with
  | none => rfl
  | some u =>
    simp only [updateUserSettings, updateUserSettingsTry]
    rcases h1 : getDoc w u.uid with ⟨r1, w1⟩
    cases r1 with
    | error e => rfl
    | ok userDoc =>
      cases userDoc with
      | none => rfl
      | some current =>
        simp only
        rcases h2 : updateDoc w1 u.uid (settingsUpdateData current settings) now
          with ⟨r2, w2⟩
        cases r2 with
        | error e => rfl
        | ok x =>
          simp only
          rcases h3 : getDoc w2 u.uid with ⟨r3, w3⟩
          cases r3 with
          | error e => rfl
          | ok updatedDoc =>
            cases updatedDoc with
            | none => rfl
            | some d => rfl

/-- C5: with no identity cached, `updateUserProfile` and `updateUserSettings`
both fail with "No authenticated user", whatever their argument, and the store
is left exactly as it was: no document changed, no call made. -/
theorem unauthenticated_fails_without_store (userData settings : JVal) (now : Nat)
    (c : Container) (w : World) (h : c.user = none) :
    (updateUserProfile userData now c w).1 = Except.error "No authenticated user"
      ∧ (updateUserProfile userData now c w).2.2 = w
      ∧ (updateUserSettings settings now c w).1 = Except.error "No authenticated user"
      ∧ (updateUserSettings settings now c w).2.2 = w := by
  simp [updateUserProfile, updateUserProfileTry, updateUserSettings,
    updateUserSettingsTry, h]

/-- An instance of C5: the freshly mounted container, any store. -/
theorem unauthenticated_fails_without_store_witness :
    (updateUserProfile (JVal.obj [("name", JVal.str "A B")]) 3 Container.initial
        exSettingsWorld).1 = Except.error "No authenticated user"
      ∧ (updateUserProfile (JVal.obj [("name", JVal.str "A B")]) 3 Container.initial
        exSettingsWorld).2.2 = exSettingsWorld
      ∧ (updateUserSettings (JVal.obj exPartial) 3 Container.initial
        exSettingsWorld).1 = Except.error "No authenticated user"
      ∧ (updateUserSettings (JVal.obj exPartial) 3 Container.initial
        exSettingsWorld).2.2 = exSettingsWorld :=
  unauthenticated_fails_without_store (JVal.obj [("name", JVal.str "A B")])
    (JVal.obj exPartial) 3 Container.initial exSettingsWorld rfl

/-- C6 as stated fails: on the freshly mounted container both operations fail
with "No authenticated user", and the `error` cell, empty before, holds that
message afterwards, so the state is not the state before the call. -/
theorem unauthenticated_changes_error :
    (updateUserProfile (JVal.obj []) 0 Container.initial exEmptyWorld).1
        = Except.error "No authenticated user"
      ∧ Container.initial.error = none
      ∧ (updateUserProfile (JVal.obj []) 0 Container.initial exEmptyWorld).2.1.error
        = some "No authenticated user"
      ∧ (updateUserProfile (JVal.obj []) 0 Container.initial exEmptyWorld).2.1
        ≠ Container.initial
      ∧ (updateUserSettings (JVal.obj []) 0 Container.initial exEmptyWorld).1
        = Except.error "No authenticated user"
      ∧ (updateUserSettings (JVal.obj []) 0 Container.initial exEmptyWorld).2.1
        ≠ Container.initial := by
  refine ⟨rfl, rfl, rfl, ?_, rfl, ?_⟩
  · intro e
    have h := congrArg Container.error e
    simp [updateUserProfile, updateUserProfileTry, Container.initial] at h
  · intro e
    have h := congrArg Container.error e
    simp [updateUserSettings, updateUserSettingsTry, Container.initial] at h

/-- C6, amended: when `updateUserProfile` or `updateUserSettings` fails for want
of an identity, `user`, `userDetails` and `loading` are as before the call and
`error` holds the message "No authenticated user". -/
theorem unauthenticated_state_after (userData settings : JVal) (now : Nat)
    (c : Container) (w : World) (h : c.user = none) :
    (updateUserProfile userData now c w).2.1
        = { c with error := some "No authenticated user" }
      ∧ (updateUserSettings settings now c w).2.1
        = { c with error := some "No authenticated user" } := by
  simp [updateUserProfile, updateUserProfileTry, updateUserSettings,
    updateUserSettingsTry, h]

/-- An instance of the amended C6 on the freshly mounted container. -/
theorem unauthenticated_state_after_witness :
    (updateUserProfile (JVal.obj []) 0 Container.initial exEmptyWorld).2.1
        = { user := none, userDetails := none, loading := true,
            error := some "No authenticated user" }
      ∧ (updateUserSettings (JVal.obj exPartial) 0 Container.initial exEmptyWorld).2.1
        = { user := none, userDetails := none, loading := true,
            error := some "No authenticated user" } :=
  unauthenticated_state_after (JVal.obj []) (JVal.obj exPartial) 0 Container.initial
    exEmptyWorld rfl

/-- C7 as stated fails: after a notification carrying `u1` and a logout whose
sign-out succeeded, `loading` is true and the identity is still cached; there
`updateUserProfile` succeeds and `updateUserSettings` returns the merged
settings. -/
theorem loading_does_not_block_updates :
    exLoadingState.1.loading = true
      ∧ (updateUserProfile (JVal.obj [("name", JVal.str "A B")]) 2 exLoadingState.1
          exLoadingState.2).1.isOk = true
      ∧ (updateUserSettings (JVal.obj exPartial) 2 exLoadingState.1
          exLoadingState.2).1 = Except.ok (JVal.obj exMerged) :=
  ⟨rfl, rfl, rfl⟩

/-- C7, amended: with `loading = true` and no identity cached, as in the freshly
mounted container, both operations fail with "No authenticated user"; `loading`
itself is never consulted, the outcome and the store are the same for either
value of it. -/
theorem loading_is_not_consulted (userData settings : JVal) (now : Nat)
    (c : Container) (w : World) (b : Bool) :
    (updateUserProfile userData now { c with user := none, loading := true } w).1
        = Except.error "No authenticated user"
      ∧ (updateUserSettings settings now { c with user := none, loading := true } w).1
        = Except.error "No authenticated user"
      ∧ (updateUserProfile userData now { c with loading := b } w).1
        = (updateUserProfile userData now c w).1
      ∧ (updateUserProfile userData now { c with loading := b } w).2.2
        = (updateUserProfile userData now c w).2.2
      ∧ (updateUserSettings settings now { c with loading := b } w).1
        = (updateUserSettings settings now c w).1
      ∧ (updateUserSettings settings now { c with loading := b } w).2.2
        = (updateUserSettings settings now c w).2.2 := by
  have hp := updateUserProfile_loading userData now c w b
  have hs := updateUserSettings_loading settings now c w b
  refine ⟨?_, ?_, ?_, ?_, ?_, ?_⟩
  · simp [updateUserProfile, updateUserProfileTry]
  · simp [updateUserSettings, updateUserSettingsTry]
  · rw [hp]
  · rw [hp]
  · rw [hs]
  · rw [hs]

/-! ### Claims on the missing profile, the handler and the phase -/

/-- C8: with an identity cached and no profile document stored for it,
`updateUserSettings` fails for every argument, the `users` collection is
unchanged (so no document is created), the only store call made is the read of
that document, and when that read goes through the failure is "User profile
does not exist". -/
theorem updateUserSettings_profile_missing (settings : JVal) (now : Nat)
    (c : Container) (w : World) (u : Identity)
    (hu : c.user = some u) (hdoc : kvGet? w.users u.uid = none) :
    (updateUserSettings settings now c w).1.isOk = false
      ∧ (updateUserSettings settings now c w).2.2.users = w.users
      ∧ kvGet? (updateUserSettings settings now c w).2.2.users u.uid = none
      ∧ (updateUserSettings settings now c w).2.2.log = w.log ++ [StoreCall.getDoc u.uid]
      ∧ (w.nextOk 1 = true →
          (updateUserSettings settings now c w).1
            = Except.error "User profile does not exist") := by
  obtain ⟨users, pending, log⟩ := w
  simp only at hdoc
  rcases pending with _ | ⟨a, rest⟩
  · simp [updateUserSettings, updateUserSettingsTry, getDoc, World.call, hu, hdoc,
      Except.isOk, Except.toBool]
  · cases a with
    | none =>
      simp [updateUserSettings, updateUserSettingsTry, getDoc, World.call, hu, hdoc,
        Except.isOk, Except.toBool]
    | some e =>
      simp [updateUserSettings, updateUserSettingsTry, getDoc, World.call, hu, hdoc,
        Except.isOk, Except.toBool, World.nextOk]

/-- An instance of C8: `u1` is cached, the store is empty. -/
theorem updateUserSettings_profile_missing_witness :
    (updateUserSettings (JVal.obj exPartial) 4 exContainer exEmptyWorld).1
        = Except.error "User profile does not exist"
      ∧ (updateUserSettings (JVal.obj exPartial) 4 exContainer exEmptyWorld).2.2.users
        = [] := by
  have h := updateUserSettings_profile_missing (JVal.obj exPartial) 4 exContainer
    exEmptyWorld exIdentity rfl rfl
  exact ⟨h.2.2.2.2 rfl, h.2.1⟩

/-- C9: whatever the notification carries and whatever the outcomes of the
store calls, the handler returns normally and leaves `loading = false`; when
the profile fetch (the second store call, after the last-login write) is
rejected with message `e`, the `error` cell holds `e`. -/
theorem onAuthStateChanged_resolves (authUser : Option Identity) (now : Nat)
    (c : Container) (w : World) (au : Identity) (o : Option String) (e : String)
    (rest : List (Option String)) :
    (onAuthStateChanged authUser now c w).1 = Except.ok ()
      ∧ (onAuthStateChanged authUser now c w).2.1.loading = false
      ∧ (onAuthStateChanged (some au) now c
          { w with pending := o :: some e :: rest }).1 = Except.ok ()
      ∧ (onAuthStateChanged (some au) now c
          { w with pending := o :: some e :: rest }).2.1.loading = false
      ∧ (onAuthStateChanged (some au) now c
          { w with pending := o :: some e :: rest }).2.1.error = some e := by
  have hgen : ∀ (a : Option Identity) (w' : World),
      (onAuthStateChanged a now c w').1 = Except.ok ()
        ∧ (onAuthStateChanged a now c w').2.1.loading = false := by
    intro a w'
    simp only [onAuthStateChanged]
    rcases h : onAuthStateChangedTry a now { c with loading := true } w' with ⟨r, c1, w1⟩
    cases r <;> simp
  refine ⟨(hgen authUser w).1, (hgen authUser w).2, (hgen _ _).1, (hgen _ _).2, ?_⟩
  cases o with
  | none =>
    cases hd : kvGet? w.users au.uid <;>
      simp [onAuthStateChanged, onAuthStateChangedTry, updateDoc, getDoc, World.call, hd]
  | some m =>
    simp [onAuthStateChanged, onAuthStateChangedTry, updateDoc, getDoc, World.call]

/-- C10 as stated fails: after the first notification `loading` is false, and a
logout whose sign-out succeeds sets it to true again. -/
theorem loading_reverts_after_logout :
    (run [Event.authStateChanged none 0] (Container.initial, exEmptyWorld)).1.loading
        = false
      ∧ (run [Event.authStateChanged none 0, Event.logout (Except.ok ())]
          (Container.initial, exEmptyWorld)).1.loading = true :=
  ⟨rfl, rfl⟩

theorem onAuthStateChanged_loading (a : Option Identity) (t : Nat) (c : Container)
    (w : World) : (onAuthStateChanged a t c w).2.1.loading = false := by
  simp only [onAuthStateChanged]

theorem step_loading (e : Event) (s : Container × World)
    (hs : s.1.loading = false) (he : e.isLogoutOk = false) :
    (step e s).1.loading = false := by
  obtain ⟨c, w⟩ := s
  cases e with
  | authStateChanged a t => exact (onAuthStateChanged_loading a t c w)
  | updateUserProfile d t =>
    have h := updateUserProfile_loading d t c w c.loading
    have hc : ({ c with loading := c.loading } : Container) = c := rfl
    rw [hc] at h
    show (updateUserProfile d t c w).2.1.loading = false
    rw [h]
    exact hs
  | updateUserSettings d t =>
    have h := updateUserSettings_loading d t c w c.loading
    have hc : ({ c with loading := c.loading } : Container) = c := rfl
    rw [hc] at h
    show (updateUserSettings d t c w).2.1.loading = false
    rw [h]
    exact hs
  | checkProfileComplete a => exact hs
  | logout r =>
    cases r with
    | error m => rfl
    | ok x => simp [Event.isLogoutOk] at he

/-- C10, amended: once `loading` is false it is false again after every
completed notification, profile update, settings update, completeness check
and failed logout; a logout whose sign-out succeeds sets `loading` to true, and
the next notification handled sets it back to false. -/
theorem loading_stays_false (es : List Event) (s : Container × World)
    (hs : s.1.loading = false) (hes : ∀ e ∈ es, e.isLogoutOk = false) :
    (run es s).1.loading = false
      ∧ (step (Event.logout (Except.ok ())) (run es s)).1.loading = true
      ∧ ∀ (a : Option Identity) (t : Nat),
          (step (Event.authStateChanged a t)
            (step (Event.logout (Except.ok ())) (run es s))).1.loading = false := by
  have hrun : (run es s).1.loading = false := by
    induction es generalizing s with
    | nil => exact hs
    | cons e tl ih =>
      have hstep : run (e :: tl) s = run tl (step e s) := rfl
      rw [hstep]
      apply ih
      · exact step_loading e s hs (hes e (by simp))
      · intro e' he'
        exact hes e' (by simp [he'])
  refine ⟨hrun, rfl, ?_⟩
  intro a t
  exact onAuthStateChanged_loading a t _ _

/-- An instance of the amended C10: a notification, a profile update and a
failed logout after the first resolution. -/
theorem loading_stays_false_witness :
    (run [Event.authStateChanged (some exIdentity) 1,
          Event.updateUserProfile (JVal.obj [("name", JVal.str "A B")]) 2,
          Event.logout (Except.error "network")]
        (run [Event.authStateChanged none 0] (Container.initial, exEmptyWorld))).1.loading
      = false :=
  (loading_stays_false
    [Event.authStateChanged (some exIdentity) 1,
     Event.updateUserProfile (JVal.obj [("name", JVal.str "A B")]) 2,
     Event.logout (Except.error "network")]
    (run [Event.authStateChanged none 0] (Container.initial, exEmptyWorld)) rfl
    (by
      intro e he
      simp only [List.mem_cons, List.mem_singleton, List.not_mem_nil, or_false] at he
      rcases he with h | h | h <;> subst h <;> rfl)).1

/-! ### Claims on notifications and logout -/

/-- C11: a notification that carries no identity leaves `user` and
`userDetails` absent and `loading` false, whatever the state before, and the
store is exactly as it was: no document changed and no call made. -/
theorem onAuthStateChanged_signed_out (now : Nat) (c : Container) (w : World) :
    (onAuthStateChanged none now c w).2.1.user = none
      ∧ (onAuthStateChanged none now c w).2.1.userDetails = none
      ∧ (onAuthStateChanged none now c w).2.1.loading = false
      ∧ (onAuthStateChanged none now c w).2.2 = w :=
  ⟨rfl, rfl, rfl, rfl⟩

/-- The handler leaves the `users` collection with the documents it found,
and after a fetch that goes through it caches the identity and the document
the store holds. -/
theorem onAuthStateChanged_fetch (au : Identity) (now : Nat) (c : Container) (w : World)
    (hfetch : w.callOk 1 = true) :
    (onAuthStateChanged (some au) now c w).2.1
        = { c with user := some au,
                   userDetails := kvGet? (onAuthStateChanged (some au) now c w).2.2.users
                     au.uid,
                   loading := false }
      ∧ (onAuthStateChanged (some au) now c w).2.2.log
        = w.log ++ [StoreCall.updateDoc au.uid lastLoginData, StoreCall.getDoc au.uid] := by
  obtain ⟨users, pending, log⟩ := w
  rcases pending with _ | ⟨a, _ | ⟨b, rest⟩⟩
  · cases hd : kvGet? users au.uid <;>
      simp [onAuthStateChanged, onAuthStateChangedTry, updateDoc, getDoc, World.call, hd,
        lastLoginData, kvGet?_kvSet_self]
  · cases a <;> cases hd : kvGet? users au.uid <;>
      simp [onAuthStateChanged, onAuthStateChangedTry, updateDoc, getDoc, World.call, hd,
        lastLoginData, kvGet?_kvSet_self]
  · cases b with
    | some m => simp [World.callOk] at hfetch
    | none =>
      cases a <;> cases hd : kvGet? users au.uid <;>
        simp [onAuthStateChanged, onAuthStateChangedTry, updateDoc, getDoc, World.call, hd,
          lastLoginData, kvGet?_kvSet_self]

/-- The handler creates no document and deletes none. -/
theorem onAuthStateChanged_users (au : Identity) (now : Nat) (c : Container) (w : World) :
    (onAuthStateChanged (some au) now c w).2.2.users = w.users
      ∨ ∃ cur, kvGet? w.users au.uid = some cur
          ∧ (onAuthStateChanged (some au) now c w).2.2.users
            = kvSet w.users au.uid (applyUpdate now cur lastLoginData) := by
  obtain ⟨users, pending, log⟩ := w
  have key : ∀ w' : World, (getDoc w' au.uid).2.users = w'.users := by
    intro w'
    unfold getDoc World.call
    rcases w'.pending with _ | ⟨o, r⟩
    · rfl
    · cases o <;> rfl
  have hu : (onAuthStateChanged (some au) now c ⟨users, pending, log⟩).2.2.users
      = (updateDoc ⟨users, pending, log⟩ au.uid lastLoginData now).2.users := by
    simp only [onAuthStateChanged, onAuthStateChangedTry]
    rcases h : getDoc (updateDoc ⟨users, pending, log⟩ au.uid
      [("lastLogin", FieldInput.serverTimestamp)] now).2 au.uid with ⟨r, w2⟩
    have hk := key (updateDoc ⟨users, pending, log⟩ au.uid
      [("lastLogin", FieldInput.serverTimestamp)] now).2
    rw [h] at hk
    cases r <;> exact hk
  rw [hu]
  rcases pending with _ | ⟨a, rest⟩
  · cases hd : kvGet? users au.uid with
    | none => left; simp [updateDoc, World.call, hd]
    | some cur => right; exact ⟨cur, rfl, by simp [updateDoc, World.call, hd]⟩
  · cases a with
    | some m => left; simp [updateDoc, World.call]
    | none =>
      cases hd : kvGet? users au.uid with
      | none => left; simp [updateDoc, World.call, hd]
      | some cur => right; exact ⟨cur, rfl, by simp [updateDoc, World.call, hd]⟩

/-- C12: when the profile fetch goes through, a notification carrying an
identity leaves that identity cached, `loading` false and the cached profile
equal to what the store holds for the identity; with no document stored the
cached profile is absent and there is still no document. -/
theorem onAuthStateChanged_caches (au : Identity) (now : Nat) (c : Container) (w : World)
    (hfetch : w.callOk 1 = true) :
    (onAuthStateChanged (some au) now c w).2.1.user = some au
      ∧ (onAuthStateChanged (some au) now c w).2.1.loading = false
      ∧ (onAuthStateChanged (some au) now c w).2.1.userDetails
        = kvGet? (onAuthStateChanged (some au) now c w).2.2.users au.uid
      ∧ (kvGet? w.users au.uid = none →
          (onAuthStateChanged (some au) now c w).2.1.userDetails = none) := by
  have h := (onAuthStateChanged_fetch au now c w hfetch).1
  refine ⟨by rw [h], by rw [h], ?_, ?_⟩
  · conv_lhs => rw [h]
  · intro hnone
    have h3 : (onAuthStateChanged (some au) now c w).2.1.userDetails
        = kvGet? (onAuthStateChanged (some au) now c w).2.2.users au.uid := by
      conv_lhs => rw [h]
    rw [h3]
    rcases onAuthStateChanged_users au now c w with hsame | ⟨cur, hcur, _⟩
    · rw [hsame, hnone]
    · rw [hnone] at hcur
      cases hcur

/-- Two instances of C12: `u1` announced to an empty store, and to a store
that holds a profile for `u1`. -/
theorem onAuthStateChanged_caches_witness :
    (onAuthStateChanged (some exIdentity) 7 Container.initial exEmptyWorld).2.1.user
        = some exIdentity
      ∧ (onAuthStateChanged (some exIdentity) 7 Container.initial
          exEmptyWorld).2.1.userDetails = none
      ∧ (onAuthStateChanged (some exIdentity) 7 Container.initial
          exStampedWorld).2.1.userDetails
        = some [("uid", JVal.str "u1"), ("updatedAt", JVal.ts 1), ("lastLogin", JVal.ts 7)] := by
  have h := onAuthStateChanged_caches exIdentity 7 Container.initial exEmptyWorld rfl
  exact ⟨h.1, h.2.2.2 rfl, rfl⟩

/-- C15: a logout whose sign-out succeeds returns `true`, leaves `user`,
`userDetails` and the store as they were, and the notification without
identity that follows clears both cells. -/
theorem logout_success_keeps_cache (now : Nat) (c : Container) (w : World) :
    (logout (Except.ok ()) c w).1 = Except.ok true
      ∧ (logout (Except.ok ()) c w).2.1.user = c.user
      ∧ (logout (Except.ok ()) c w).2.1.userDetails = c.userDetails
      ∧ (logout (Except.ok ()) c w).2.1.error = c.error
      ∧ (logout (Except.ok ()) c w).2.2 = w
      ∧ (onAuthStateChanged none now (logout (Except.ok ()) c w).2.1
          (logout (Except.ok ()) c w).2.2).2.1.user = none
      ∧ (onAuthStateChanged none now (logout (Except.ok ()) c w).2.1
          (logout (Except.ok ()) c w).2.2).2.1.userDetails = none :=
  ⟨rfl, rfl, rfl, rfl, rfl, rfl, rfl⟩

/-- C16 as stated fails: with `u1` cached and no error recorded, a logout
whose sign-out is rejected with "network" throws that error and leaves
"network" in the `error` cell, so the state is not the state before. -/
theorem logout_failure_changes_error :
    (logout (Except.error "network") exContainer exEmptyWorld).1 = Except.error "network"
      ∧ exContainer.error = none
      ∧ (logout (Except.error "network") exContainer exEmptyWorld).2.1.error
        = some "network"
      ∧ (logout (Except.error "network") exContainer exEmptyWorld).2.1 ≠ exContainer := by
  refine ⟨rfl, rfl, rfl, ?_⟩
  intro e
  have h := congrArg Container.error e
  simp [logout, exContainer] at h

/-- C16, amended: a logout whose sign-out is rejected throws the provider's
error to the caller and leaves `user`, `userDetails` and the store as they
were; `error` holds the message of the failure and `loading` is false. -/
theorem logout_failure_state (e : String) (c : Container) (w : World) :
    (logout (Except.error e) c w).1 = Except.error e
      ∧ (logout (Except.error e) c w).2.1
        = { c with error := some e, loading := false }
      ∧ (logout (Except.error e) c w).2.2 = w :=
  ⟨rfl, rfl, rfl⟩

/-! ### Claims on what the updates return and propagate -/

/-- C13: whenever `updateUserProfile` returns a value, an identity is cached,
the value is the document the store now holds for that identity, and
`userDetails` holds that same document. -/
theorem updateUserProfile_returns_stored (userData : JVal) (now : Nat) (c : Container)
    (w : World) (v : JVal)
    (h : (updateUserProfile userData now c w).1 = Except.ok v) :
    ∃ (u : Identity) (D : Obj),
      c.user = some u
        ∧ v = JVal.obj D
        ∧ kvGet? (updateUserProfile userData now c w).2.2.users u.uid = some D
        ∧ (updateUserProfile userData now c w).2.1.userDetails = some D := by
  obtain ⟨user, details, loading, error⟩ := c
  cases user with
  | none => simp [updateUserProfile, updateUserProfileTry] at h
  | some u =>
    obtain ⟨users, pending, log⟩ := w
    refine ⟨u, ?_⟩
    rcases pending with _ | ⟨a, _ | ⟨b, _ | ⟨e, rest⟩⟩⟩
    · cases hd : kvGet? users u.uid <;>
        simp [updateUserProfile, updateUserProfileTry, getDoc, updateDoc, setDoc,
          World.call, hd, kvGet?_kvSet_self, docData] at h ⊢ <;>
        exact h.symm
    · cases a <;> cases hd : kvGet? users u.uid <;>
        simp [updateUserProfile, updateUserProfileTry, getDoc, updateDoc, setDoc,
          World.call, hd, kvGet?_kvSet_self, docData] at h ⊢ <;>
        exact h.symm
    · cases a <;> cases b <;> cases hd : kvGet? users u.uid <;>
        simp [updateUserProfile, updateUserProfileTry, getDoc, updateDoc, setDoc,
          World.call, hd, kvGet?_kvSet_self, docData] at h ⊢ <;>
        exact h.symm
    · cases a <;> cases b <;> cases e <;> cases hd : kvGet? users u.uid <;>
        simp [updateUserProfile, updateUserProfileTry, getDoc, updateDoc, setDoc,
          World.call, hd, kvGet?_kvSet_self, docData] at h ⊢ <;>
        exact h.symm

/-- An instance of C13: the profile created for `u1` in the empty store. -/
theorem updateUserProfile_returns_stored_witness :
    ∃ (u : Identity) (D : Obj),
      exContainer.user = some u
        ∧ JVal.obj
            [("uid", JVal.str "u1"), ("email", JVal.str "a@b.com"),
             ("authProvider", JVal.str "unknown"), ("createdAt", JVal.ts 5),
             ("lastLogin", JVal.ts 5), ("accountStatus", JVal.str "active"),
             ("name", JVal.str "A B")] = JVal.obj D
        ∧ kvGet? (updateUserProfile (JVal.obj [("name", JVal.str "A B")]) 5 exContainer
            exEmptyWorld).2.2.users u.uid = some D
        ∧ (updateUserProfile (JVal.obj [("name", JVal.str "A B")]) 5 exContainer
            exEmptyWorld).2.1.userDetails = some D :=
  updateUserProfile_returns_stored (JVal.obj [("name", JVal.str "A B")]) 5 exContainer
    exEmptyWorld _ rfl
/-- C14: with an identity cached, whichever store call of `updateUserProfile`
or `updateUserSettings` is rejected (the read, the write or the re-read, the
earlier ones going through), the operation fails to its caller with the
message of that rejection. For `updateUserSettings` the write and the re-read
are only reached when the document exists. -/
theorem store_failure_propagates (userData settings : JVal) (now : Nat) (c : Container)
    (u : Identity) (users users0 : Store) (log : List StoreCall) (e : String)
    (rest : List (Option String)) (cur : Obj)
    (hu : c.user = some u) (hdoc : kvGet? users u.uid = some cur) :
    (updateUserProfile userData now c
        { users := users0, pending := some e :: rest, log := log }).1 = Except.error e
      ∧ (updateUserProfile userData now c
        { users := users0, pending := none :: some e :: rest, log := log }).1
          = Except.error e
      ∧ (updateUserProfile userData now c
        { users := users0, pending := none :: none :: some e :: rest, log := log }).1
          = Except.error e
      ∧ (updateUserSettings settings now c
        { users := users, pending := some e :: rest, log := log }).1 = Except.error e
      ∧ (updateUserSettings settings now c
        { users := users, pending := none :: some e :: rest, log := log }).1
          = Except.error e
      ∧ (updateUserSettings settings now c
        { users := users, pending := none :: none :: some e :: rest, log := log }).1
          = Except.error e := by
  refine ⟨?_, ?_, ?_, ?_, ?_, ?_⟩
  · simp [updateUserProfile, updateUserProfileTry, getDoc, World.call, hu]
  · cases hd : kvGet? users0 u.uid <;>
      simp [updateUserProfile, updateUserProfileTry, getDoc, updateDoc, setDoc,
        World.call, hu, hd]
  · cases hd : kvGet? users0 u.uid <;>
      simp [updateUserProfile, updateUserProfileTry, getDoc, updateDoc, setDoc,
        World.call, hu, hd, kvGet?_kvSet_self]
  · simp [updateUserSettings, updateUserSettingsTry, getDoc, World.call, hu]
  · simp [updateUserSettings, updateUserSettingsTry, getDoc, updateDoc, World.call, hu,
      hdoc]
  · simp [updateUserSettings, updateUserSettingsTry, getDoc, updateDoc, World.call, hu,
      hdoc, kvGet?_kvSet_self]

/-- An instance of C14: `u1` cached, a stored profile, the store answering
"unavailable" at the first, second or third call. -/
theorem store_failure_propagates_witness :
    (updateUserProfile (JVal.obj [("name", JVal.str "A B")]) 3 exContainer
        { users := [], pending := [none, some "unavailable"], log := [] }).1
        = Except.error "unavailable"
      ∧ (updateUserSettings (JVal.obj exPartial) 3 exContainer
        { users := exSettingsWorld.users, pending := [none, none, some "unavailable"],
          log := [] }).1 = Except.error "unavailable" := by
  have h := store_failure_propagates (JVal.obj [("name", JVal.str "A B")])
    (JVal.obj exPartial) 3 exContainer exIdentity exSettingsWorld.users [] []
    "unavailable" [] [("uid", JVal.str "u1"), ("settings", JVal.obj exSettings)] rfl rfl
  exact ⟨h.2.1, h.2.2.2.2.2⟩

/-! ### Claims on the fields a write touches -/

/-- C17 as stated fails: with a profile stored for `u1` whose `uid` is "u1",
`updateUserProfile({uid: "other"})` succeeds and the document's `uid` is
"other". -/
theorem uid_overwritten :
    storedField exSettingsWorld "u1" "uid" = some (JVal.str "u1")
      ∧ (updateUserProfile (JVal.obj [("uid", JVal.str "other")]) 3 exContainer
          exSettingsWorld).1.isOk = true
      ∧ storedField (updateUserProfile (JVal.obj [("uid", JVal.str "other")]) 3
          exContainer exSettingsWorld).2.2 "u1" "uid" = some (JVal.str "other")
      ∧ storedField (updateUserProfile (JVal.obj [("uid", JVal.str "other")]) 3
          exContainer exSettingsWorld).2.2 "u1" "uid"
        ≠ storedField exSettingsWorld "u1" "uid" := by
  refine ⟨rfl, rfl, rfl, ?_⟩
  have h1 : storedField (updateUserProfile (JVal.obj [("uid", JVal.str "other")]) 3
      exContainer exSettingsWorld).2.2 "u1" "uid" = some (JVal.str "other") := rfl
  have h2 : storedField exSettingsWorld "u1" "uid" = some (JVal.str "u1") := rfl
  rw [h1, h2]
  intro e
  have h3 : "other" = "u1" := by
    injection e with e1
    injection e1
  exact absurd h3 (by decide)

/-- C17, amended: for an existing profile document and supplied fields `F`, no
key of which is `uid` or a dotted path into it, after `updateUserProfile(F)`
(the three store calls going through) the document's `uid` is what it was. -/
theorem updateUserProfile_keeps_uid (F : Obj) (now : Nat) (c : Container) (w : World)
    (u : Identity) (cur : Obj)
    (hu : c.user = some u) (hdoc : kvGet? w.users u.uid = some cur)
    (hok : w.nextOk 3 = true)
    (hF : ∀ key ∈ F.keys, (fieldPath key).head? ≠ some "uid") :
    (updateUserProfile (JVal.obj F) now c w).1.isOk = true
      ∧ storedField (updateUserProfile (JVal.obj F) now c w).2.2 u.uid "uid"
        = storedField w u.uid "uid" := by
  have h := updateUserProfile_update_of_ok (JVal.obj F) now c w u cur hu hdoc hok
  simp only at h
  rw [h]
  refine ⟨rfl, ?_⟩
  simp only [storedField, kvGet?_kvSet_self, hdoc, Option.bind]
  exact profileUpdate_keeps F now cur "uid" (by decide) hF

/-- An instance of the amended C17: the name is updated, the uid stays "u1". -/
theorem updateUserProfile_keeps_uid_witness :
    storedField (updateUserProfile (JVal.obj [("name", JVal.str "A B")]) 3 exContainer
        exSettingsWorld).2.2 "u1" "uid" = some (JVal.str "u1") := by
  have h := updateUserProfile_keeps_uid [("name", JVal.str "A B")] 3 exContainer
    exSettingsWorld exIdentity [("uid", JVal.str "u1"), ("settings", JVal.obj exSettings)]
    rfl rfl rfl
    (by
      intro key hkey
      have : key = "name" := by simpa [Obj.keys, kvKeys] using hkey
      subst this
      decide)
  exact h.2.trans rfl

/-- What the last-login write of the handler leaves in the `users` collection
when it goes through on an existing document. -/
theorem onAuthStateChanged_write_ok (au : Identity) (now : Nat) (c : Container)
    (w : World) (cur : Obj)
    (hw : w.callOk 0 = true) (hdoc : kvGet? w.users au.uid = some cur) :
    (onAuthStateChanged (some au) now c w).2.2.users
      = kvSet w.users au.uid (kvSet cur "lastLogin" (JVal.ts now)) := by
  have hp : fieldPath "lastLogin" = ["lastLogin"] := by decide
  have happ : applyUpdate now cur [("lastLogin", FieldInput.serverTimestamp)]
      = kvSet cur "lastLogin" (JVal.ts now) := by
    simp [applyUpdate, hp, setPath]
  obtain ⟨users, pending, log⟩ := w
  simp only at hdoc
  rcases pending with _ | ⟨a, _ | ⟨b, rest⟩⟩
  · simp [onAuthStateChanged, onAuthStateChangedTry, updateDoc, getDoc, World.call, hdoc,
      happ]
  · cases a with
    | some m => simp [World.callOk] at hw
    | none =>
      simp [onAuthStateChanged, onAuthStateChangedTry, updateDoc, getDoc, World.call,
        hdoc, happ]
  · cases a with
    | some m => simp [World.callOk] at hw
    | none =>
      cases b <;>
        simp [onAuthStateChanged, onAuthStateChangedTry, updateDoc, getDoc, World.call,
          hdoc, happ]

/-- The calls the handler makes for a present identity, whatever their
outcome: the last-login update, then the read. -/
theorem onAuthStateChanged_log (au : Identity) (now : Nat) (c : Container) (w : World) :
    (onAuthStateChanged (some au) now c w).2.2.log
      = w.log ++ [StoreCall.updateDoc au.uid lastLoginData, StoreCall.getDoc au.uid] := by
  obtain ⟨users, pending, log⟩ := w
  rcases pending with _ | ⟨a, _ | ⟨b, rest⟩⟩
  · cases hd : kvGet? users au.uid <;>
      simp [onAuthStateChanged, onAuthStateChangedTry, updateDoc, getDoc, World.call, hd,
        lastLoginData]
  · cases a <;> cases hd : kvGet? users au.uid <;>
      simp [onAuthStateChanged, onAuthStateChangedTry, updateDoc, getDoc, World.call, hd,
        lastLoginData]
  · cases a <;> cases b <;> cases hd : kvGet? users au.uid <;>
      simp [onAuthStateChanged, onAuthStateChangedTry, updateDoc, getDoc, World.call, hd,
        lastLoginData]

/-- What `updateUserSettings` does when the document exists and the three
store calls go through, for any argument and any stored settings. -/
theorem updateUserSettings_stored (settings : JVal) (now : Nat) (c : Container)
    (w : World) (u : Identity) (cur : Obj)
    (hu : c.user = some u) (hdoc : kvGet? w.users u.uid = some cur)
    (hok : w.nextOk 3 = true) :
    (updateUserSettings settings now c w).1.isOk = true
      ∧ (updateUserSettings settings now c w).2.2.users
        = kvSet w.users u.uid
            (kvSet (kvSet cur "settings"
              (JVal.obj (kvAssign (kvAssign [] (spreadOf (Obj.get cur "settings")))
                (spreadOf settings)))) "updatedAt" (JVal.ts now)) := by
  have hp1 : fieldPath "settings" = ["settings"] := by decide
  have hp2 : fieldPath "updatedAt" = ["updatedAt"] := by decide
  have happ : applyUpdate now cur (settingsUpdateData cur settings)
      = kvSet (kvSet cur "settings"
          (JVal.obj (kvAssign (kvAssign [] (spreadOf (Obj.get cur "settings")))
            (spreadOf settings)))) "updatedAt" (JVal.ts now) := by
    simp [applyUpdate, settingsUpdateData, hp1, hp2, setPath]
  obtain ⟨users, pending, log⟩ := w
  simp only at hdoc
  rcases pending with _ | ⟨a, _ | ⟨b, _ | ⟨e, rest⟩⟩⟩ <;>
    simp [World.nextOk] at hok <;>
    simp [updateUserSettings, updateUserSettingsTry, getDoc, updateDoc, World.call, hu,
      hdoc, hok, happ, kvGet?_kvSet_self, Except.isOk, Except.toBool]

/-- C18 as stated fails: the last-login write at time 7 on a document last
updated at time 1 sets `lastLogin = 7` and leaves `updatedAt = 1`; and the
profile created at time 5 has no `updatedAt` at all. -/
theorem updatedAt_not_always_stamped :
    storedField (onAuthStateChanged (some exIdentity) 7 Container.initial
        exStampedWorld).2.2 "u1" "lastLogin" = some (JVal.ts 7)
      ∧ storedField (onAuthStateChanged (some exIdentity) 7 Container.initial
        exStampedWorld).2.2 "u1" "updatedAt" = some (JVal.ts 1)
      ∧ storedField (onAuthStateChanged (some exIdentity) 7 Container.initial
        exStampedWorld).2.2 "u1" "updatedAt" ≠ some (JVal.ts 7)
      ∧ storedField exFirstCall.2.2 "u1" "createdAt" = some (JVal.ts 5)
      ∧ storedField exFirstCall.2.2 "u1" "updatedAt" = none := by
  refine ⟨rfl, rfl, ?_, rfl, rfl⟩
  have h : storedField (onAuthStateChanged (some exIdentity) 7 Container.initial
      exStampedWorld).2.2 "u1" "updatedAt" = some (JVal.ts 1) := rfl
  rw [h]
  intro e
  have h3 : (1 : Nat) = 7 := by
    injection e with e1
    injection e1
  exact absurd h3 (by decide)

/-- C18, amended: a profile update and a settings update set the document's
`updatedAt` to the time of the write; the last-login write sets `lastLogin` to
that time and leaves `updatedAt` as it was; a profile creation stores no
`updatedAt` unless the caller supplies one. -/
theorem updatedAt_on_updates (F : Obj) (settings : JVal) (now : Nat) (c : Container)
    (w w0 : World) (u : Identity) (cur : Obj)
    (hu : c.user = some u) (hdoc : kvGet? w.users u.uid = some cur)
    (hok : w.nextOk 3 = true)
    (hdoc0 : kvGet? w0.users u.uid = none) (hok0 : w0.nextOk 3 = true)
    (hF : "updatedAt" ∉ F.keys) :
    storedField (updateUserProfile (JVal.obj F) now c w).2.2 u.uid "updatedAt"
        = some (JVal.ts now)
      ∧ storedField (updateUserSettings settings now c w).2.2 u.uid "updatedAt"
        = some (JVal.ts now)
      ∧ storedField (onAuthStateChanged (some u) now c w).2.2 u.uid "lastLogin"
        = some (JVal.ts now)
      ∧ storedField (onAuthStateChanged (some u) now c w).2.2 u.uid "updatedAt"
        = storedField w u.uid "updatedAt"
      ∧ storedField (updateUserProfile (JVal.obj F) now c w0).2.2 u.uid "updatedAt"
        = none := by
  have hw0 : w.callOk 0 = true := by
    obtain ⟨users, pending, log⟩ := w
    rcases pending with _ | ⟨a, rest⟩
    · rfl
    · cases a with
      | none => rfl
      | some m => simp [World.nextOk] at hok
  have h1 := updateUserProfile_update_of_ok (JVal.obj F) now c w u cur hu hdoc hok
  simp only at h1
  have h2 := (updateUserSettings_stored settings now c w u cur hu hdoc hok).2
  have h3 := onAuthStateChanged_write_ok u now c w cur hw0 hdoc
  have h4 := updateUserProfile_create_of_ok (JVal.obj F) now c w0 u hu hdoc0 hok0
  simp only at h4
  refine ⟨?_, ?_, ?_, ?_, ?_⟩
  · rw [h1]
    simp only [storedField, kvGet?_kvSet_self, Option.bind]
    exact profileUpdate_updatedAt F now cur
  · rw [storedField, h2]
    simp only [kvGet?_kvSet_self, Option.bind]
  · rw [storedField, h3]
    simp only [kvGet?_kvSet_self, Option.bind]
  · rw [storedField, h3]
    simp only [storedField, kvGet?_kvSet_self, hdoc, Option.bind]
    exact kvGet?_kvSet_ne _ _ _ _ (by decide)
  · rw [h4]
    simp only [storedField, kvGet?_kvSet_self, Option.bind]
    rw [profileCreate_default u F now _ hF]
    simp [kvGet?]

/-- An instance of the amended C18 on the stored profile of `u1`. -/
theorem updatedAt_on_updates_witness :
    storedField (updateUserProfile (JVal.obj [("name", JVal.str "A B")]) 9 exContainer
        exStampedWorld).2.2 "u1" "updatedAt" = some (JVal.ts 9)
      ∧ storedField (updateUserSettings (JVal.obj exPartial) 9 exContainer
        exStampedWorld).2.2 "u1" "updatedAt" = some (JVal.ts 9) := by
  have h := updatedAt_on_updates [("name", JVal.str "A B")] (JVal.obj exPartial) 9
    exContainer exStampedWorld exEmptyWorld exIdentity
    [("uid", JVal.str "u1"), ("updatedAt", JVal.ts 1)] rfl rfl rfl rfl rfl
    (by simp [Obj.keys, kvKeys])
  exact ⟨h.1, h.2.1⟩

/-! ### Claims on the last-login write and on lazy creation -/

/-- C19: when the last-login write of the handler fails (rejected by the
store, or the document is not found) and the profile fetch goes through, the
handler still reads the profile after the write, caches the identity and what
the read found, leaves `error` as it was and `loading` false, and the `users`
collection is unchanged. -/
theorem onAuthStateChanged_tolerates_write_failure (au : Identity) (now : Nat)
    (c : Container) (w : World) (m : String)
    (hfail : (updateDoc w au.uid lastLoginData now).1 = Except.error m)
    (hfetch : w.callOk 1 = true) :
    (onAuthStateChanged (some au) now c w).1 = Except.ok ()
      ∧ (onAuthStateChanged (some au) now c w).2.2.log
        = w.log ++ [StoreCall.updateDoc au.uid lastLoginData, StoreCall.getDoc au.uid]
      ∧ (onAuthStateChanged (some au) now c w).2.1.user = some au
      ∧ (onAuthStateChanged (some au) now c w).2.1.userDetails = kvGet? w.users au.uid
      ∧ (onAuthStateChanged (some au) now c w).2.1.error = c.error
      ∧ (onAuthStateChanged (some au) now c w).2.1.loading = false
      ∧ (onAuthStateChanged (some au) now c w).2.2.users = w.users := by
  obtain ⟨users, pending, log⟩ := w
  rcases pending with _ | ⟨a, _ | ⟨b, rest⟩⟩
  · cases hd : kvGet? users au.uid with
    | none =>
      simp [onAuthStateChanged, onAuthStateChangedTry, updateDoc, getDoc, World.call, hd,
        lastLoginData]
    | some cur => simp [updateDoc, World.call, hd, lastLoginData] at hfail
  · cases a with
    | some m0 =>
      simp [onAuthStateChanged, onAuthStateChangedTry, updateDoc, getDoc, World.call,
        lastLoginData]
    | none =>
      cases hd : kvGet? users au.uid with
      | none =>
        simp [onAuthStateChanged, onAuthStateChangedTry, updateDoc, getDoc, World.call,
          hd, lastLoginData]
      | some cur => simp [updateDoc, World.call, hd, lastLoginData] at hfail
  · cases b with
    | some m1 => simp [World.callOk] at hfetch
    | none =>
      cases a with
      | some m0 =>
        simp [onAuthStateChanged, onAuthStateChangedTry, updateDoc, getDoc, World.call,
          lastLoginData]
      | none =>
        cases hd : kvGet? users au.uid with
        | none =>
          simp [onAuthStateChanged, onAuthStateChangedTry, updateDoc, getDoc, World.call,
            hd, lastLoginData]
        | some cur => simp [updateDoc, World.call, hd, lastLoginData] at hfail

/-- An instance of C19: `u1` announced to an empty store, where the
last-login write finds no document. -/
theorem onAuthStateChanged_tolerates_write_failure_witness :
    (updateDoc exEmptyWorld "u1" lastLoginData 7).1 = Except.error "No document to update"
      ∧ (onAuthStateChanged (some exIdentity) 7 Container.initial exEmptyWorld).2.1.user
        = some exIdentity
      ∧ (onAuthStateChanged (some exIdentity) 7 Container.initial exEmptyWorld).2.1.error
        = none
      ∧ (onAuthStateChanged (some exIdentity) 7 Container.initial
          exEmptyWorld).2.1.loading = false := by
  have h := onAuthStateChanged_tolerates_write_failure exIdentity 7 Container.initial
    exEmptyWorld "No document to update" rfl rfl
  exact ⟨rfl, h.2.2.1, h.2.2.2.2.1, h.2.2.2.2.2.1⟩

/-- C20 as stated fails: after the notification carrying `u1` has been handled
on an empty store, `u1` is cached and the store still holds no document for
it. -/
theorem handler_creates_no_document :
    (onAuthStateChanged (some exIdentity) 7 Container.initial exEmptyWorld).2.1.user
        = some exIdentity
      ∧ kvGet? (onAuthStateChanged (some exIdentity) 7 Container.initial
          exEmptyWorld).2.2.users "u1" = none :=
  ⟨rfl, rfl⟩

theorem isSome_kvGet?_kvSet {α : Type} (o : List (String × α)) (k id : String) (v x : α)
    (h : kvGet? o k = some x) :
    (kvGet? (kvSet o k v) id).isSome = (kvGet? o id).isSome := by
  by_cases hk : k = id
  · subst hk
    rw [kvGet?_kvSet_self, h]
    rfl
  · rw [kvGet?_kvSet_ne _ _ _ _ hk]

/-- C20, amended: after a notification carrying an identity has been handled,
a profile document exists for an id exactly when one existed before; the
handler only attempts the last-login update and reads the document, it never
creates one. -/
theorem handler_keeps_document_set (au : Identity) (now : Nat) (c : Container)
    (w : World) (id : String) :
    (kvGet? (onAuthStateChanged (some au) now c w).2.2.users id).isSome
        = (kvGet? w.users id).isSome
      ∧ (onAuthStateChanged (some au) now c w).2.2.log
        = w.log ++ [StoreCall.updateDoc au.uid lastLoginData, StoreCall.getDoc au.uid] := by
  refine ⟨?_, onAuthStateChanged_log au now c w⟩
  rcases onAuthStateChanged_users au now c w with h | ⟨cur, hcur, h⟩
  · rw [h]
  · rw [h]
    exact isSome_kvGet?_kvSet _ _ _ _ _ hcur

/-! ### Claims on the screens -/

/-- C21: `ProtectedRoute` renders its children exactly when `loading` is false
and a user is present, `PublicRoute` exactly when `loading` is false and no
user is present; while `loading` is true neither renders its children, and in
no state do both. -/
theorem routes_render_children (c : Container) :
    (ProtectedRoute c = Rendered.children ↔ c.loading = false ∧ c.user.isSome = true)
      ∧ (PublicRoute c = Rendered.children ↔ c.loading = false ∧ c.user = none)
      ∧ ProtectedRoute { c with loading := true } = Rendered.nothing
      ∧ PublicRoute { c with loading := true } = Rendered.nothing
      ∧ ¬ (ProtectedRoute c = Rendered.children ∧ PublicRoute c = Rendered.children) := by
  obtain ⟨user, details, loading, error⟩ := c
  cases loading <;> cases user <;> simp [ProtectedRoute, PublicRoute]

theorem kvGet?_mem {α : Type} (o : List (String × α)) (k : String) (v : α)
    (h : kvGet? o k = some v) : (k, v) ∈ o := by
  induction o with
  | nil => simp [kvGet?] at h
  | cons hd tl ih =>
    obtain ⟨k0, v0⟩ := hd
    by_cases hk : k0 = k
    · subst hk
      have : v0 = v := by simpa [kvGet?] using h
      simp [this]
    · have h' : kvGet? tl k = some v := by simpa [kvGet?, hk] using h
      simp [ih h']

/-- Every entry of the table has exactly the keys "Ripe" and "Unripe". -/
theorem recommendations_entries (fruit : String) (entry : List (String × String))
    (h : kvGet? recommendations fruit = some entry) :
    ∃ a b, entry = [("Ripe", a), ("Unripe", b)] := by
  have hkeys : ∀ e ∈ recommendations, kvKeys e.2 = ["Ripe", "Unripe"] := by decide
  have hk := hkeys _ (kvGet?_mem _ _ _ h)
  simp only at hk
  match entry, hk with
  | [(k1, a), (k2, b)], hk =>
    simp only [kvKeys, List.map_cons, List.map_nil, List.cons.injEq, and_true] at hk
    obtain ⟨h1, h2⟩ := hk
    subst h1 h2
    exact ⟨a, b, rfl⟩

/-- Reading a ripeness label on an entry of the table. -/
theorem entryProp_two (a b ripeness : String) :
    entryProp [("Ripe", a), ("Unripe", b)] "Ripe" = Recommendation.text a
      ∧ entryProp [("Ripe", a), ("Unripe", b)] "Unripe" = Recommendation.text b
      ∧ (ripeness ≠ "Ripe" → ripeness ≠ "Unripe" →
          ∀ s, entryProp [("Ripe", a), ("Unripe", b)] ripeness ≠ Recommendation.text s) := by
  refine ⟨by simp [entryProp, protoGet, kvGet?], by simp [entryProp, protoGet, kvGet?], ?_⟩
  intro h1 h2 s
  have h1' : ¬ "Ripe" = ripeness := fun e => h1 e.symm
  have h2' : ¬ "Unripe" = ripeness := fun e => h2 e.symm
  simp only [entryProp, protoGet, kvGet?, h1', h2', if_false]
  split_ifs <;> simp

/-- On a fruit name that is not a member of `Object.prototype` the function
reads the entry of a listed fruit and the default entry otherwise. -/
theorem shelfLife_plain_name (fruit ripeness : String) (hfruit : fruit ∉ objectPrototypeKeys) :
    ∃ a b, getShelfLifeRecommendation fruit ripeness
        = entryProp [("Ripe", a), ("Unripe", b)] ripeness
      ∧ ((kvGet? recommendations fruit = some [("Ripe", a), ("Unripe", b)])
          ∨ (kvGet? recommendations fruit = none
              ∧ defaultEntry = [("Ripe", a), ("Unripe", b)])) := by
  cases h : kvGet? recommendations fruit with
  | some entry =>
    obtain ⟨a, b, hab⟩ := recommendations_entries fruit entry h
    subst hab
    exact ⟨a, b, by simp [getShelfLifeRecommendation, protoGet, h], Or.inl rfl⟩
  | none =>
    refine ⟨_, _, ?_, Or.inr ⟨rfl, rfl⟩⟩
    simp [getShelfLifeRecommendation, protoGet, h, hfruit]
    rfl

/-- C22, the failing input: "constructor" is not a listed fruit, the default
recommendation for "Ripe" is the text of line 145, and
`getShelfLifeRecommendation("constructor", "Ripe")` is `undefined`: the read
`recommendations["constructor"]` finds the inherited constructor, which is
truthy and has no property "Ripe". -/
theorem shelfLife_inherited_name_undefined :
    "constructor" ∉ listedFruits
      ∧ kvGet? recommendations "constructor" = none
      ∧ entryProp defaultEntry "Ripe" = Recommendation.text
          "Ready for consumption. Store in appropriate conditions based on fruit type."
      ∧ getShelfLifeRecommendation "constructor" "Ripe" = Recommendation.undefined
      ∧ getShelfLifeRecommendation "constructor" "Ripe" ≠ entryProp defaultEntry "Ripe" := by
  refine ⟨by decide, rfl, rfl, rfl, ?_⟩
  have h1 : getShelfLifeRecommendation "constructor" "Ripe" = Recommendation.undefined := rfl
  have h2 : entryProp defaultEntry "Ripe" = Recommendation.text
      "Ready for consumption. Store in appropriate conditions based on fruit type." := rfl
  rw [h1, h2]
  intro e
  cases e

/-- C23 as stated fails: for the label "Overripe" the function returns
`undefined`, for a listed fruit and for an unlisted one. -/
theorem shelfLife_overripe_undefined :
    getShelfLifeRecommendation "Apple" "Overripe" = Recommendation.undefined
      ∧ getShelfLifeRecommendation "Kiwi" "Overripe" = Recommendation.undefined :=
  ⟨rfl, rfl⟩

/-- C23, amended: for a fruit name that is not a member of `Object.prototype`,
the function returns a recommendation text exactly when the ripeness label is
"Ripe" or "Unripe": the text of the fruit when it is listed, the default text
otherwise; no other label has a text and none falls back to one. -/
theorem shelfLife_text_iff (fruit ripeness : String) (hfruit : fruit ∉ objectPrototypeKeys) :
    ((∃ s, getShelfLifeRecommendation fruit ripeness = Recommendation.text s)
        ↔ ripeness = "Ripe" ∨ ripeness = "Unripe")
      ∧ (∀ entry, kvGet? recommendations fruit = some entry →
          getShelfLifeRecommendation fruit ripeness = entryProp entry ripeness)
      ∧ (kvGet? recommendations fruit = none →
          getShelfLifeRecommendation fruit ripeness = entryProp defaultEntry ripeness) := by
  obtain ⟨a, b, hres, hsrc⟩ := shelfLife_plain_name fruit ripeness hfruit
  obtain ⟨hr, hu, hother⟩ := entryProp_two a b ripeness
  refine ⟨?_, ?_, ?_⟩
  · rw [hres]
    constructor
    · rintro ⟨s, hs⟩
      by_contra hne
      push_neg at hne
      exact hother hne.1 hne.2 s hs
    · rintro (h | h)
      · subst h
        exact ⟨a, hr⟩
      · subst h
        exact ⟨b, hu⟩
  · intro entry he
    rcases hsrc with h | ⟨h, _⟩
    · rw [hres]
      rw [h] at he
      cases he
      rfl
    · rw [h] at he
      cases he
  · intro hnone
    rcases hsrc with h | ⟨_, h⟩
    · rw [h] at hnone
      cases hnone
    · rw [hres, h]

/-- Two instances of the amended C23: a listed fruit and an unlisted one. -/
theorem shelfLife_text_iff_witness :
    getShelfLifeRecommendation "Mango" "Ripe"
        = Recommendation.text "Best consumed within 2-3 days. Refrigerate to extend shelf life."
      ∧ getShelfLifeRecommendation "Kiwi" "Unripe"
        = Recommendation.text "Store at room temperature to continue ripening process." := by
  have h1 := (shelfLife_text_iff "Mango" "Ripe" (by decide)).2.1 _ rfl
  have h2 := (shelfLife_text_iff "Kiwi" "Unripe" (by decide)).2.2 rfl
  exact ⟨h1.trans rfl, h2.trans rfl⟩

/-- C24: `getDaysToRipe` depends on the label only up to the case of its
letters, and returns 0 for "ripe", -1 for "overripe", 3 for "underripe", 1 for
"nearly ripe", and 2 for every other label and for a missing one. -/
theorem getDaysToRipe_spec (s t : String) :
    (sameIgnoringCase s t = true → getDaysToRipe (some s) = getDaysToRipe (some t))
      ∧ (sameIgnoringCase s "ripe" = true → getDaysToRipe (some s) = 0)
      ∧ (sameIgnoringCase s "overripe" = true → getDaysToRipe (some s) = -1)
      ∧ (sameIgnoringCase s "underripe" = true → getDaysToRipe (some s) = 3)
      ∧ (sameIgnoringCase s "nearly ripe" = true → getDaysToRipe (some s) = 1)
      ∧ (sameIgnoringCase s "ripe" = false → sameIgnoringCase s "overripe" = false →
          sameIgnoringCase s "underripe" = false →
          sameIgnoringCase s "nearly ripe" = false → getDaysToRipe (some s) = 2)
      ∧ getDaysToRipe none = 2
      ∧ getDaysToRipe (some "ripe") = 0 ∧ getDaysToRipe (some "RIPE") = 0
      ∧ getDaysToRipe (some "OverRipe") = -1 ∧ getDaysToRipe (some "Underripe") = 3
      ∧ getDaysToRipe (some "Nearly Ripe") = 1 ∧ getDaysToRipe (some "Unripe") = 2 := by
  have l1 : toLowerCase "ripe" = "ripe" := by decide
  have l2 : toLowerCase "overripe" = "overripe" := by decide
  have l3 : toLowerCase "underripe" = "underripe" := by decide
  have l4 : toLowerCase "nearly ripe" = "nearly ripe" := by decide
  refine ⟨?_, ?_, ?_, ?_, ?_, ?_, by decide, by decide, by decide, by decide, by decide,
    by decide, by decide⟩
  · intro h
    have h' : toLowerCase s = toLowerCase t := by simpa [sameIgnoringCase] using h
    simp [getDaysToRipe, h']
  · intro h
    have h' : toLowerCase s = "ripe" := by simpa [sameIgnoringCase, l1] using h
    simp [getDaysToRipe, h']
  · intro h
    have h' : toLowerCase s = "overripe" := by simpa [sameIgnoringCase, l2] using h
    simp [getDaysToRipe, h']
  · intro h
    have h' : toLowerCase s = "underripe" := by simpa [sameIgnoringCase, l3] using h
    simp [getDaysToRipe, h']
  · intro h
    have h' : toLowerCase s = "nearly ripe" := by simpa [sameIgnoringCase, l4] using h
    simp [getDaysToRipe, h']
  · intro h1 h2 h3 h4
    have h1' : ¬ toLowerCase s = "ripe" := by simpa [sameIgnoringCase, l1] using h1
    have h2' : ¬ toLowerCase s = "overripe" := by simpa [sameIgnoringCase, l2] using h2
    have h3' : ¬ toLowerCase s = "underripe" := by simpa [sameIgnoringCase, l3] using h3
    have h4' : ¬ toLowerCase s = "nearly ripe" := by simpa [sameIgnoringCase, l4] using h4
    simp [getDaysToRipe, h1', h2', h3', h4']

/-! ### The recent-scans list -/

theorem addScan_cons_hit (s : RecentScan) (rest : List RecentScan) (doc : ScanDoc)
    (hk : s.key = doc.key) :
    addScan (s :: rest) doc
      = (if s.fruits.contains doc.fruit then s
          else { s with fruits := s.fruits ++ [doc.fruit] }) :: rest := by
  have h1 : s.date = (scanOf doc).date := congrArg Prod.fst hk
  have h2 : s.scanId = (scanOf doc).scanId := congrArg Prod.snd hk
  have hp : (decide (s.date = (scanOf doc).date)
      && decide (s.scanId = (scanOf doc).scanId)) = true := by
    simp [h1, h2]
  simp only [addScan, findIndex, hp, if_true, elemAt, updateAt]
  by_cases hc : s.fruits.contains doc.fruit = true
  · rw [if_pos hc, if_pos hc]
  · rw [if_neg hc, if_neg hc]

theorem addScan_cons_miss (s : RecentScan) (rest : List RecentScan) (doc : ScanDoc)
    (hk : s.key ≠ doc.key) :
    addScan (s :: rest) doc = s :: addScan rest doc := by
  have hp : (decide (s.date = (scanOf doc).date)
      && decide (s.scanId = (scanOf doc).scanId)) = false := by
    by_contra hcon
    simp only [Bool.not_eq_false, Bool.and_eq_true, decide_eq_true_eq] at hcon
    exact hk (Prod.ext hcon.1 hcon.2)
  simp only [addScan, findIndex, hp, Bool.false_eq_true, if_false]
  cases hf : findIndex (fun s => decide (s.date = (scanOf doc).date)
      && decide (s.scanId = (scanOf doc).scanId)) rest with
  | none => rfl
  | some i =>
    simp only [Option.map_some', elemAt]
    cases he : elemAt rest i with
    | none => rfl
    | some ex =>
      simp only
      by_cases hc : ex.fruits.contains doc.fruit = true
      · rw [if_pos hc, if_pos hc]
      · rw [if_neg hc, if_neg hc]
        rfl

theorem addScan_eq_insertScan (scans : List RecentScan) (doc : ScanDoc) :
    addScan scans doc = insertScan scans doc := by
  induction scans with
  | nil => rfl
  | cons s rest ih =>
    by_cases hk : s.key = doc.key
    · rw [addScan_cons_hit s rest doc hk]
      simp only [insertScan, hk, if_true]
    · rw [addScan_cons_miss s rest doc hk, ih]
      simp only [insertScan, hk, if_false]
theorem insertScan_keys (scans : List RecentScan) (doc : ScanDoc) :
    (insertScan scans doc).map RecentScan.key
      = if doc.key ∈ scans.map RecentScan.key then scans.map RecentScan.key
        else scans.map RecentScan.key ++ [doc.key] := by
  induction scans with
  | nil => simp [insertScan, RecentScan.key, ScanDoc.key, scanOf]
  | cons s rest ih =>
    by_cases hk : s.key = doc.key
    · have hmem : doc.key ∈ (s :: rest).map RecentScan.key := by simp [hk]
      rw [if_pos hmem]
      simp only [insertScan, hk, if_true, List.map_cons]
      by_cases hc : s.fruits.contains doc.fruit = true
      · rw [if_pos hc, hk]
      · rw [if_neg hc]
        have : RecentScan.key { s with fruits := s.fruits ++ [doc.fruit] } = s.key := rfl
        rw [this, hk]
    · simp only [insertScan, hk, if_false, List.map_cons, ih]
      have hk' : ¬ doc.key = s.key := fun e => hk e.symm
      by_cases hm : doc.key ∈ rest.map RecentScan.key
      · have hm' : doc.key ∈ s.key :: rest.map RecentScan.key := List.mem_cons_of_mem _ hm
        rw [if_pos hm, if_pos hm']
      · have hm' : doc.key ∉ s.key :: rest.map RecentScan.key := by
          simp only [List.mem_cons, not_or]
          exact ⟨hk', hm⟩
        rw [if_neg hm, if_neg hm']
        rfl

theorem insertScan_keys_nodup (scans : List RecentScan) (doc : ScanDoc)
    (h : (scans.map RecentScan.key).Nodup) :
    ((insertScan scans doc).map RecentScan.key).Nodup := by
  rw [insertScan_keys]
  by_cases hm : doc.key ∈ scans.map RecentScan.key
  · rw [if_pos hm]
    exact h
  · rw [if_neg hm]
    rw [List.nodup_append]
    refine ⟨h, List.nodup_singleton _, ?_⟩
    intro a ha hb
    rw [List.mem_singleton] at hb
    subst hb
    exact hm ha

theorem insertScan_fruits_nodup (scans : List RecentScan) (doc : ScanDoc)
    (h : ∀ s ∈ scans, s.fruits.Nodup) :
    ∀ s ∈ insertScan scans doc, s.fruits.Nodup := by
  induction scans with
  | nil =>
    intro s hs
    simp only [insertScan, List.mem_singleton] at hs
    subst hs
    exact List.nodup_singleton _
  | cons s0 rest ih =>
    have h0 : s0.fruits.Nodup := h s0 (by simp)
    have hrest : ∀ s ∈ rest, s.fruits.Nodup := fun s hs => h s (by simp [hs])
    intro s hs
    by_cases hk : s0.key = doc.key
    · simp only [insertScan, hk, if_true, List.mem_cons] at hs
      rcases hs with hs | hs
      · by_cases hc : s0.fruits.contains doc.fruit = true
        · rw [if_pos hc] at hs
          rw [hs]
          exact h0
        · rw [if_neg hc] at hs
          rw [hs]
          have hnot : doc.fruit ∉ s0.fruits := by
            intro hin
            exact hc (by simpa using hin)
          show (s0.fruits ++ [doc.fruit]).Nodup
          rw [List.nodup_append]
          refine ⟨h0, List.nodup_singleton _, ?_⟩
          intro a ha hb
          rw [List.mem_singleton] at hb
          subst hb
          exact hnot ha
      · exact hrest s hs
    · simp only [insertScan, hk, if_false, List.mem_cons] at hs
      rcases hs with hs | hs
      · rw [hs]
        exact h0
      · exact ih hrest s hs

theorem insertScan_keeps (scans : List RecentScan) (doc : ScanDoc) (s : RecentScan)
    (hs : s ∈ scans) :
    ∃ s' ∈ insertScan scans doc, s'.key = s.key ∧ ∀ x ∈ s.fruits, x ∈ s'.fruits := by
  induction scans with
  | nil => simp at hs
  | cons s0 rest ih =>
    by_cases hk : s0.key = doc.key
    · simp only [insertScan, hk, if_true]
      rcases List.mem_cons.1 hs with h | h
      · subst h
        by_cases hc : s.fruits.contains doc.fruit = true
        · rw [if_pos hc]
          exact ⟨s, by simp, rfl, fun x hx => hx⟩
        · rw [if_neg hc]
          exact ⟨{ s with fruits := s.fruits ++ [doc.fruit] }, by simp, rfl,
            fun x hx => List.mem_append_left _ hx⟩
      · exact ⟨s, List.mem_cons_of_mem _ h, rfl, fun x hx => hx⟩
    · simp only [insertScan, hk, if_false]
      rcases List.mem_cons.1 hs with h | h
      · subst h
        exact ⟨s, by simp, rfl, fun x hx => hx⟩
      · obtain ⟨s', hs', hkey, hfr⟩ := ih h
        exact ⟨s', List.mem_cons_of_mem _ hs', hkey, hfr⟩

theorem insertScan_covers (scans : List RecentScan) (doc : ScanDoc) :
    ∃ s' ∈ insertScan scans doc, s'.key = doc.key ∧ doc.fruit ∈ s'.fruits := by
  induction scans with
  | nil => exact ⟨scanOf doc, by simp [insertScan], rfl, by simp [scanOf]⟩
  | cons s0 rest ih =>
    by_cases hk : s0.key = doc.key
    · simp only [insertScan, hk, if_true]
      by_cases hc : s0.fruits.contains doc.fruit = true
      · rw [if_pos hc]
        exact ⟨s0, by simp, hk, by simpa using hc⟩
      · rw [if_neg hc]
        exact ⟨{ s0 with fruits := s0.fruits ++ [doc.fruit] }, by simp, hk, by simp⟩
    · simp only [insertScan, hk, if_false]
      obtain ⟨s', hs', hkey, hfr⟩ := ih
      exact ⟨s', List.mem_cons_of_mem _ hs', hkey, hfr⟩

theorem scansInvariant_foldl (docs seen : List ScanDoc) (scans : List RecentScan)
    (h : ScansInvariant scans seen) :
    ScansInvariant (docs.foldl addScan scans) (seen ++ docs) := by
  induction docs generalizing scans seen with
  | nil => simpa using h
  | cons d rest ih =>
    have hstep : ScansInvariant (addScan scans d) (seen ++ [d]) := by
      rw [addScan_eq_insertScan]
      obtain ⟨h1, h2, h3⟩ := h
      refine ⟨insertScan_keys_nodup scans d h1, insertScan_fruits_nodup scans d h2, ?_⟩
      intro d' hd'
      rcases List.mem_append.1 hd' with hin | hin
      · obtain ⟨s, hs, hkey, hfr⟩ := h3 d' hin
        obtain ⟨s', hs', hkey', hfr'⟩ := insertScan_keeps scans d s hs
        exact ⟨s', hs', hkey'.trans hkey, hfr' _ hfr⟩
      · rw [List.mem_singleton] at hin
        subst hin
        exact insertScan_covers scans d'
    have := ih (seen ++ [d]) (addScan scans d) hstep
    simpa using this

/-- C25: in the recent-scans list built from any sequence of scan documents no
two entries have the same (date, scanId) pair, no entry lists a fruit twice,
and the fruit of every document is in the fruits of an entry with the
(date, scanId) of that document. -/
theorem recentScans_grouped (docs : List ScanDoc) :
    ((recentScans docs).map RecentScan.key).Nodup
      ∧ (∀ s ∈ recentScans docs, s.fruits.Nodup)
      ∧ (∀ d ∈ docs, ∃ s ∈ recentScans docs, s.key = d.key ∧ d.fruit ∈ s.fruits) := by
  have h := scansInvariant_foldl docs [] [] ⟨List.nodup_nil, by simp, by simp⟩
  simpa [ScansInvariant, recentScans] using h

/-! ### The history list -/

theorem scanItems_eq (startDate : Option Int) (docs : List ScanRecord) :
    scanItems startDate docs
      = (docs.filter (fun d => !outOfRange startDate d.scannedAt)).map scanItemOf := by
  have h : ∀ (acc : List HistoryItem),
      docs.foldl (fun items data =>
        if outOfRange startDate data.scannedAt then items else items ++ [scanItemOf data]) acc
      = acc ++ (docs.filter (fun d => !outOfRange startDate d.scannedAt)).map scanItemOf := by
    induction docs with
    | nil => intro acc; simp
    | cons d rest ih =>
      intro acc
      by_cases hd : outOfRange startDate d.scannedAt = true
      · simp [List.foldl, hd, ih]
      · simp [List.foldl, hd, ih]
  simpa [scanItems] using h []

theorem groceryItems_eq (startDate : Option Int) (docs : List GroceryRecord) :
    groceryItems startDate docs
      = (docs.filter (fun d => !outOfRange startDate d.addedAt)).map groceryItemOf := by
  have h : ∀ (acc : List HistoryItem),
      docs.foldl (fun items data =>
        if outOfRange startDate data.addedAt then items else items ++ [groceryItemOf data]) acc
      = acc ++ (docs.filter (fun d => !outOfRange startDate d.addedAt)).map groceryItemOf := by
    induction docs with
    | nil => intro acc; simp
    | cons d rest ih =>
      intro acc
      by_cases hd : outOfRange startDate d.addedAt = true
      · simp [List.foldl, hd, ih]
      · simp [List.foldl, hd, ih]
  simpa [groceryItems] using h []

/-- C26: the combined history list is a permutation of the items of the scan
documents in range followed by the items of the grocery documents in range,
and it is ordered newest first: the date of every item is at least the date of
every item after it. -/
theorem fetchHistoryData_sorted_perm (dateRange : String) (now : Int)
    (scans : List ScanRecord) (groceries : List GroceryRecord) :
    (fetchHistoryData dateRange now scans groceries).Perm
        ((scans.filter (fun d => !outOfRange (startDateOf dateRange now) d.scannedAt)).map
            scanItemOf
          ++ (groceries.filter
              (fun d => !outOfRange (startDateOf dateRange now) d.addedAt)).map groceryItemOf)
      ∧ (fetchHistoryData dateRange now scans groceries).Pairwise
          (fun a b => a.date ≥ b.date)
      ∧ (fetchHistoryData dateRange now scans groceries).Chain'
          (fun a b => a.date ≥ b.date) := by
  haveI : IsTotal HistoryItem newerFirst := ⟨fun a b => le_total b.date a.date⟩
  haveI : IsTrans HistoryItem newerFirst :=
    ⟨fun a b c hab hbc => le_trans hbc hab⟩
  have hsorted : (fetchHistoryData dateRange now scans groceries).Pairwise newerFirst :=
    List.sorted_insertionSort newerFirst _
  refine ⟨?_, hsorted, List.Pairwise.chain' hsorted⟩
  have hperm := List.perm_insertionSort newerFirst
    (scanItems (startDateOf dateRange now) scans
      ++ groceryItems (startDateOf dateRange now) groceries)
  rw [scanItems_eq, groceryItems_eq] at hperm
  simpa [fetchHistoryData, sortByDate, scanItems_eq, groceryItems_eq] using hperm

/-- C27: for each of the filters "all", "scans" and "grocery", `filteredItems`
is the history list filtered, in its order, by "the type matches the filter and
the fruit name contains the search term", both lowered by `toLowerCase` and an
empty term admitting every item; it is a sub-list of the history list. -/
theorem filteredItems_spec (lower : String → String) (items : List HistoryItem)
    (searchTerm : String) :
    (∀ f ∈ ["all", "scans", "grocery"],
        filteredItems lower items f searchTerm
          = items.filter (fun item =>
              decide (typeAdmitted f item.type ∧ termAdmitted lower searchTerm item.fruit)))
      ∧ (∀ f, (filteredItems lower items f searchTerm).Sublist items) := by
  refine ⟨?_, fun f => List.filter_sublist _⟩
  intro f hf
  simp only [List.mem_cons, List.mem_singleton, List.not_mem_nil, or_false] at hf
  unfold filteredItems
  apply List.filter_congr
  intro item _
  by_cases hterm : searchTerm = ""
  · rcases hf with h | h | h <;> subst h <;>
      by_cases ht1 : item.type = "scan" <;> by_cases ht2 : item.type = "grocery" <;>
      simp [typeAdmitted, termAdmitted, hterm, ht1, ht2]
  · by_cases hinc : (lower searchTerm).toList <:+: (lower item.fruit).toList
    · rcases hf with h | h | h <;> subst h <;>
        by_cases ht1 : item.type = "scan" <;> by_cases ht2 : item.type = "grocery" <;>
        simp [typeAdmitted, termAdmitted, includes, hterm, hinc, ht1, ht2]
    · rcases hf with h | h | h <;> subst h <;>
        by_cases ht1 : item.type = "scan" <;> by_cases ht2 : item.type = "grocery" <;>
        simp [typeAdmitted, termAdmitted, includes, hterm, hinc, ht1, ht2]

/-! ### The signup form, the login write and the initials -/

theorem isUpper_eq (c : Char) : c.isUpper = decide ('A' ≤ c ∧ c ≤ 'Z') := by
  simp only [Char.isUpper, Char.le_def, Bool.decide_and, ge_iff_le]
  rfl

theorem isDigit_eq (c : Char) : c.isDigit = decide ('0' ≤ c ∧ c ≤ '9') := by
  simp only [Char.isDigit, Char.le_def, Bool.decide_and, ge_iff_le]
  rfl

theorem isAlphanum_eq (c : Char) :
    c.isAlphanum = (decide ('A' ≤ c ∧ c ≤ 'Z') || decide ('a' ≤ c ∧ c ≤ 'z')
      || decide ('0' ≤ c ∧ c ≤ '9')) := by
  simp only [Char.isAlphanum, Char.isAlpha, Char.isUpper, Char.isLower, Char.isDigit,
    Char.le_def, Bool.decide_and, ge_iff_le]
  rfl

theorem passwordStrengthOf_eq_spec (password : String) :
    passwordStrengthOf password = specStrength password := by
  unfold passwordStrengthOf specStrength strengthCriteria
  by_cases h : password = ""
  · simp [h]
  · simp only [h, if_false]
    have e1 : (password.toList.any Char.isUpper)
        = password.toList.any (fun c => decide ('A' ≤ c ∧ c ≤ 'Z')) := by
      congr 1
      funext c
      exact isUpper_eq c
    have e2 : (password.toList.any Char.isDigit)
        = password.toList.any (fun c => decide ('0' ≤ c ∧ c ≤ '9')) := by
      congr 1
      funext c
      exact isDigit_eq c
    have e3 : (password.toList.any (fun c => !c.isAlphanum))
        = password.toList.any (fun c =>
            !(decide ('A' ≤ c ∧ c ≤ 'Z') || decide ('a' ≤ c ∧ c ≤ 'z')
              || decide ('0' ≤ c ∧ c ≤ '9'))) := by
      congr 1
      funext c
      rw [isAlphanum_eq]
    rw [e1, e2, e3]
    generalize (password.toList.any (fun c => decide ('A' ≤ c ∧ c ≤ 'Z'))) = b2
    generalize (password.toList.any (fun c => decide ('0' ≤ c ∧ c ≤ '9'))) = b3
    generalize (password.toList.any (fun c =>
      !(decide ('A' ≤ c ∧ c ≤ 'Z') || decide ('a' ≤ c ∧ c ≤ 'z')
        || decide ('0' ≤ c ∧ c ≤ '9')))) = b4
    by_cases h1 : jsLength password ≥ 8 <;> cases b2 <;> cases b3 <;> cases b4 <;>
      simp [h1]

/-- C28: with the strength cell holding the strength of the password,
`validateForm` returns true exactly when the password equals the confirmation,
the strength is at least 2 and the terms are agreed; the strength the screen
computes is 0 for the empty password and otherwise the number of criteria
satisfied among: at least 8 code units, a letter A-Z, a digit, a character
that is neither a letter a-z or A-Z nor a digit. -/
theorem validateForm_spec (password confirmPassword : String) (agreedToTerms : Bool) :
    ((validateForm password confirmPassword (passwordStrengthOf password)
          agreedToTerms).1 = true
        ↔ password = confirmPassword ∧ 2 ≤ specStrength password ∧ agreedToTerms = true)
      ∧ passwordStrengthOf password = specStrength password
      ∧ specStrength "" = 0 := by
  refine ⟨?_, passwordStrengthOf_eq_spec password, rfl⟩
  rw [passwordStrengthOf_eq_spec]
  unfold validateForm
  by_cases h1 : password = confirmPassword
  · subst h1
    by_cases h2 : specStrength password < 2
    · have h3 : ¬ 2 ≤ specStrength password := Nat.not_le_of_lt h2
      simp [h2, h3]
    · have h3 : 2 ≤ specStrength password := Nat.le_of_not_lt h2
      cases agreedToTerms <;> simp [h2, h3]
  · simp [h1]

/-- C29, the failing input: the profile of `u1` holds the settings
`{theme: "dark"}`; after `saveUserData("u1")` with the box "remember me"
unticked the stored settings are `{theme: "dark", rememberMe: false}`, so a
field other than `lastLogin` has changed. -/
theorem login_writes_rememberMe :
    storedField exLoginWorld "u1" "settings"
        = some (JVal.obj [("theme", JVal.str "dark")])
      ∧ (LoginScreen.saveUserData { email := "a@b.com", rememberMe := false } "u1" "email" 9
          exLoginWorld).1 = Except.ok ()
      ∧ storedField (LoginScreen.saveUserData { email := "a@b.com", rememberMe := false }
          "u1" "email" 9 exLoginWorld).2 "u1" "lastLogin" = some (JVal.ts 9)
      ∧ storedField (LoginScreen.saveUserData { email := "a@b.com", rememberMe := false }
          "u1" "email" 9 exLoginWorld).2 "u1" "settings"
        = some (JVal.obj [("theme", JVal.str "dark"), ("rememberMe", JVal.bool false)])
      ∧ storedField (LoginScreen.saveUserData { email := "a@b.com", rememberMe := false }
          "u1" "email" 9 exLoginWorld).2 "u1" "settings"
        ≠ storedField exLoginWorld "u1" "settings" := by
  refine ⟨rfl, rfl, rfl, rfl, ?_⟩
  have h1 : storedField (LoginScreen.saveUserData { email := "a@b.com", rememberMe := false }
      "u1" "email" 9 exLoginWorld).2 "u1" "settings"
      = some (JVal.obj [("theme", JVal.str "dark"), ("rememberMe", JVal.bool false)]) := rfl
  have h2 : storedField exLoginWorld "u1" "settings"
      = some (JVal.obj [("theme", JVal.str "dark")]) := rfl
  rw [h1, h2]
  intro e
  injection e with e1
  injection e1 with e2
  injection e2 with _ e3
  cases e3

/-- C30, the failing input: for a profile name with a trailing space, "Ada ",
the second name part is empty and `getUserInitials` returns "AUNDEFINED", ten
characters; the name "Ada Lovelace" gives "AL". -/
theorem getUserInitials_trailing_space :
    getUserInitials (exNamed "Ada Lovelace") = Except.ok "AL"
      ∧ splitOnSpace "Ada " = ["Ada", ""]
      ∧ getUserInitials (exNamed "Ada ") = Except.ok "AUNDEFINED"
      ∧ "AUNDEFINED".length = 10 := by
  refine ⟨rfl, by decide, rfl, by decide⟩

end RipenTech
